import Mathlib

/-!
# Blockchain.js: signalling over a ledger event log

A shallow embedding of `src/Blockchain.js`.  Byte arrays are lists of
naturals, promises are rendered by their final outcome together with the
ordered list of observable effects (ledger queries, encryptions, submitted
transactions, handler-pool runs, uncaught errors).
-/

namespace Blockchain

/-- Contents of a `Uint8Array` / `ArrayBuffer`. -/
abbrev Bytes := List Nat

/-- Errors a JavaScript call can throw in this program. -/
inductive JsError where
  | bounds
  | typeError
  | codec
  | crypto
  deriving DecidableEq, Repr

/-- Equality of results is decidable. -/
instance instDecidableEqExcept {ε α : Type} [DecidableEq ε] [DecidableEq α] :
    DecidableEq (Except ε α)
  | .ok a, .ok b =>
    if h : a = b then isTrue (by rw [h]) else isFalse (fun h2 => h (Except.ok.inj h2))
  | .error a, .error b =>
    if h : a = b then isTrue (by rw [h]) else isFalse (fun h2 => h (Except.error.inj h2))
  | .ok _, .error _ => isFalse (fun h => Except.noConfusion h)
  | .error _, .ok _ => isFalse (fun h => Except.noConfusion h)

/-! ## Platform text codec (`TextEncoder`, `TextDecoder`, `String.length`) -/

/-- UTF-8 bytes of one code point, as `TextEncoder.encode` emits them. -/
def utf8EncodeChar (c : Char) : Bytes :=
  if c.toNat < 0x80 then [c.toNat]
  else if c.toNat < 0x800 then [0xC0 + c.toNat / 64, 0x80 + c.toNat % 64]
  else if c.toNat < 0x10000 then
    [0xE0 + c.toNat / 4096, 0x80 + c.toNat / 64 % 64, 0x80 + c.toNat % 64]
  else
    [0xF0 + c.toNat / 262144, 0x80 + c.toNat / 4096 % 64, 0x80 + c.toNat / 64 % 64,
      0x80 + c.toNat % 64]

/-- UTF-8 bytes of a list of code points. -/
def encodeChars : List Char → Bytes
  | [] => []
  | c :: cs => utf8EncodeChar c ++ encodeChars cs

/-- Model of `enc.encode(s)`. -/
def textEncode (s : String) : Bytes := encodeChars s.data

/-- Number of UTF-16 code units of one code point. -/
def utf16Units (c : Char) : Nat := if c.toNat < 0x10000 then 1 else 2

/-- Sum of the UTF-16 code units of a list of code points. -/
def unitsOf : List Char → Nat
  | [] => 0
  | c :: cs => utf16Units c + unitsOf cs

/-- Model of the JavaScript `s.length` (UTF-16 code units). -/
def jsLength (s : String) : Nat := unitsOf s.data

/-- State of the streaming UTF-8 decoder of `TextDecoder`. -/
structure Utf8State where
  codePoint : Nat
  bytesNeeded : Nat
  bytesSeen : Nat
  lower : Nat
  upper : Nat
  deriving DecidableEq, Repr

/-- Decoder state between two code points. -/
def Utf8State.init : Utf8State := ⟨0, 0, 0, 0x80, 0xBF⟩

/-- The replacement character U+FFFD. -/
def replacementChar : Char := Char.ofNat 0xFFFD

/-- One byte seen when no code point is in progress. -/
def utf8Start (b : Nat) : Utf8State × List Char :=
  if b ≤ 0x7F then (Utf8State.init, [Char.ofNat b])
  else if 0xC2 ≤ b ∧ b ≤ 0xDF then (⟨b % 32, 1, 0, 0x80, 0xBF⟩, [])
  else if 0xE0 ≤ b ∧ b ≤ 0xEF then
    (⟨b % 16, 2, 0, if b = 0xE0 then 0xA0 else 0x80, if b = 0xED then 0x9F else 0xBF⟩, [])
  else if 0xF0 ≤ b ∧ b ≤ 0xF4 then
    (⟨b % 8, 3, 0, if b = 0xF0 then 0x90 else 0x80, if b = 0xF4 then 0x8F else 0xBF⟩, [])
  else (Utf8State.init, [replacementChar])

/-- One step of the decoder: a byte outside the expected continuation range
emits U+FFFD and is then handled as the first byte of a new code point. -/
def utf8Step (st : Utf8State) (b : Nat) : Utf8State × List Char :=
  if st.bytesNeeded = 0 then utf8Start b
  else if b < st.lower ∨ st.upper < b then
    ((utf8Start b).1, replacementChar :: (utf8Start b).2)
  else if st.bytesSeen + 1 = st.bytesNeeded then
    (Utf8State.init, [Char.ofNat (st.codePoint * 64 + b % 64)])
  else (⟨st.codePoint * 64 + b % 64, st.bytesNeeded, st.bytesSeen + 1, 0x80, 0xBF⟩, [])

/-- Run the decoder over a byte list; an unfinished code point at the end
emits U+FFFD. -/
def utf8Decode : Utf8State → Bytes → List Char
  | st, [] => if st.bytesNeeded = 0 then [] else [replacementChar]
  | st, b :: bs => (utf8Step st b).2 ++ utf8Decode (utf8Step st b).1 bs

/-- Remove one leading byte order mark (the decoder is built without
`ignoreBOM`). -/
def stripBOM (bs : Bytes) : Bytes :=
  if bs.take 3 = [0xEF, 0xBB, 0xBF] then bs.drop 3 else bs

/-- Model of `dec.decode(bytes)` on a byte array. -/
def textDecode (bs : Bytes) : String := ⟨utf8Decode Utf8State.init (stripBOM bs)⟩

/-- Model of `dec.decode(x)` where `x` may be `null`: a `null` argument is
not a buffer source and the call throws a `TypeError`. -/
def decodeNullable : Option Bytes → Except JsError String
  | none => .error .typeError
  | some bs => .ok (textDecode bs)

/-! ## BinData: cursor-based reader/writer -/

/-- Modelled from the spec: `BinData.js` is imported by `Blockchain.js` but is
not among the sources.  A fixed-capacity byte buffer with a single cursor
(spec 4.1): every `set*`/`get*` advances the cursor by the encoded width,
writing past capacity or reading past the end fails with a bounds error,
16-bit integers are little-endian, strings are UTF-8. -/
structure BinData where
  buffer : Bytes
  cursor : Nat
  deriving DecidableEq, Repr

namespace BinData

/-- Modelled from the spec: `new BinData(n)`, a fresh buffer of capacity `n`. -/
def alloc (n : Nat) : BinData := ⟨List.replicate n 0, 0⟩

/-- Modelled from the spec: `new BinData(buffer)`, wrapping existing bytes
for reading. -/
def wrap (bs : Bytes) : BinData := ⟨bs, 0⟩

/-- Modelled from the spec: sequential write of raw bytes at the cursor. -/
def write (bin : BinData) (bs : Bytes) : Except JsError BinData :=
  if bin.cursor + bs.length ≤ bin.buffer.length then
    .ok ⟨bin.buffer.take bin.cursor ++ bs ++ bin.buffer.drop (bin.cursor + bs.length),
      bin.cursor + bs.length⟩
  else .error .bounds

/-- Modelled from the spec: sequential read of `len` raw bytes at the cursor. -/
def read (bin : BinData) (len : Nat) : Except JsError (Bytes × BinData) :=
  if bin.cursor + len ≤ bin.buffer.length then
    .ok ((bin.buffer.drop bin.cursor).take len, ⟨bin.buffer, bin.cursor + len⟩)
  else .error .bounds

/-- Modelled from the spec: `setUint8(v)`, one byte (the value is reduced
modulo 256 as by a typed-array store). -/
def setUint8 (bin : BinData) (v : Nat) : Except JsError BinData := bin.write [v % 256]

/-- Modelled from the spec: `setUint16(v)`, two bytes, little-endian. -/
def setUint16 (bin : BinData) (v : Nat) : Except JsError BinData :=
  bin.write [v % 256, v / 256 % 256]

/-- Modelled from the spec: `setString(s)`, the UTF-8 bytes of `s`. -/
def setString (bin : BinData) (s : String) : Except JsError BinData :=
  bin.write (textEncode s)

/-- Modelled from the spec: `setBuffer(bytes)`, raw bytes verbatim. -/
def setBuffer (bin : BinData) (bs : Bytes) : Except JsError BinData := bin.write bs

/-- Modelled from the spec: `getUint8()`. -/
def getUint8 (bin : BinData) : Except JsError (Nat × BinData) :=
  match bin.read 1 with
  | .ok (bs, bin2) => .ok (bs.headD 0, bin2)
  | .error e => .error e

/-- Modelled from the spec: `getUint16()`, little-endian. -/
def getUint16 (bin : BinData) : Except JsError (Nat × BinData) :=
  match bin.read 2 with
  | .ok (bs, bin2) => .ok (bs.headD 0 + 256 * bs.tail.headD 0, bin2)
  | .error e => .error e

/-- Modelled from the spec: `getString(len)`, UTF-8 decoding of exactly
`len` bytes. -/
def getString (bin : BinData) (len : Nat) : Except JsError (String × BinData) :=
  match bin.read len with
  | .ok (bs, bin2) => .ok (textDecode bs, bin2)
  | .error e => .error e

/-- Modelled from the spec: `getBuffer(len)`, `len` raw bytes. -/
def getBuffer (bin : BinData) (len : Nat) : Except JsError (Bytes × BinData) := bin.read len

/-- Modelled from the spec: `uint8Array`, the backing buffer truncated to
the bytes written so far. -/
def uint8Array (bin : BinData) : Bytes := bin.buffer.take bin.cursor

end BinData

/-! ## Collaborators: ledger client, keyring, address codec -/

/-- Value returned by `query.templateModule.itemByAccountIdStore`: the
registration record of a signing identity.  A field is `none` when the
property is `undefined` on the returned value. -/
structure Item where
  isEmpty : Bool
  address : Option Bytes
  nickname : Option Bytes
  deriving DecidableEq, Repr

/-- Value returned by `query.templateModule.itemByNicknameStore`. -/
structure NicknameEntry where
  isEmpty : Bool
  value : Option Bytes
  deriving DecidableEq, Repr

/-- One entry of `contactByAccountIdStore.entries(owner)`: `contact[0].args[1]`
and `contact[1].name.buffer`. -/
structure ContactEntry where
  args1 : Bytes
  name : Bytes
  deriving DecidableEq, Repr

/-- Ledger queries issued through `client.query.templateModule`. -/
inductive Query where
  | itemByAccountIdStore (key : Bytes)
  | itemByNicknameStore (key : Bytes)
  | contactByAccountIdStore (owner : Bytes)
  deriving DecidableEq, Repr

/-- Transactions submitted through `client.tx.templateModule`, with their
arguments in call order. -/
inductive Tx where
  | register (nickname publicKey : Bytes)
  | upsertContact (name addr : Bytes)
  | offerChat (welcomeMsg offer edAddress : Bytes)
  | answerChat (answer : Bytes) (toAddr : String)
  deriving DecidableEq, Repr

/-- Payload handed to the Offer handler pool (`fromAddr` is the field `from`). -/
structure OfferPayload where
  fromSr : String
  fromAddr : String
  offer : String
  welcomeMsg : String
  deriving DecidableEq, Repr

/-- Payload handed to the Answer handler pool (`fromAddr` is the field `from`). -/
structure AnswerPayload where
  fromAddr : String
  offer : String
  deriving DecidableEq, Repr

/-- Why a promise was rejected. -/
inductive Reason where
  | undefined
  | message (s : String)
  | error (e : JsError)
  deriving DecidableEq, Repr

/-- Observable effects, in program order. -/
inductive Effect where
  | query (q : Query)
  | encrypt (msg key : Bytes)
  | submit (tx : Tx)
  | runOffer (p : OfferPayload)
  | runAnswer (p : AnswerPayload)
  | thrown (e : JsError)
  | unhandledRejection (r : Reason)
  deriving DecidableEq, Repr

/-- What one process sees of its collaborators: its two keyrings, the
address codec and the ledger client. -/
structure Env where
  /-- The text address `this.#edKeyring.address`. -/
  edAddress : String
  /-- The text address `this.#srKeyring.address`. -/
  srAddress : String
  /-- The codec call `encodeAddress(bytes)`. -/
  encodeAddress : Bytes → Except JsError String
  /-- The codec call `decodeAddress(text)` on a text address. -/
  decodeText : String → Except JsError Bytes
  /-- The keyring call `this.#edKeyring.encryptMessage(message, recipientPublicKey)`. -/
  encryptMessage : Bytes → Bytes → Except JsError Bytes
  /-- The keyring call `this.#edKeyring.decryptMessage(ciphertext, senderPublicKey)`;
  `none` is the `null` the keyring returns when the box does not open. -/
  decryptMessage : Bytes → Bytes → Except JsError (Option Bytes)
  /-- Ledger state: registration records by signing identity. -/
  itemByAccountIdStore : Bytes → Item
  /-- Ledger state: the username index. -/
  itemByNicknameStore : Bytes → NicknameEntry
  /-- Ledger state: contact records of an owner. -/
  contactEntries : Bytes → List ContactEntry
  /-- For a submitted transaction, the `status.isInBlock` flag of each status
  notification the transport delivers. -/
  txStatuses : Tx → List Bool

/-- Argument of `decodeAddress`: a text address, or raw bytes which the codec
returns unchanged. -/
inductive AddressArg where
  | text (s : String)
  | raw (bs : Bytes)
  deriving DecidableEq, Repr

/-- The codec call `decodeAddress(x)`. -/
def Env.decodeAddress (env : Env) : AddressArg → Except JsError Bytes
  | .text s => env.decodeText s
  | .raw bs => .ok bs

/-! ## Synchronous blocks and promise outcomes -/

/-- A synchronous run of JavaScript statements: the effects performed and
either the value reached or the error thrown. -/
structure Js (α : Type) where
  result : Except JsError α
  trace : List Effect
  deriving DecidableEq

namespace Js

/-- A block that only returns. -/
def ret {α : Type} (a : α) : Js α := ⟨.ok a, []⟩

/-- Sequencing: a throw skips the rest, the effects so far are kept. -/
def andThen {α β : Type} (x : Js α) (f : α → Js β) : Js β :=
  match x.result with
  | .error e => ⟨.error e, x.trace⟩
  | .ok a => ⟨(f a).result, x.trace ++ (f a).trace⟩

instance : Monad Js where
  pure := ret
  bind := andThen

/-- A pure call that may throw. -/
def lift {α : Type} (r : Except JsError α) : Js α := ⟨r, []⟩

/-- Record one effect. -/
def emit (e : Effect) : Js Unit := ⟨.ok (), [e]⟩

end Js

/-- Final state of a promise. -/
inductive Outcome (α : Type) where
  | resolved (v : α)
  | rejected (r : Reason)
  | pending
  deriving DecidableEq, Repr

/-- An asynchronous operation: the final state of the promise it returned and
the effects it performed. -/
structure Run (α : Type) where
  outcome : Outcome α
  trace : List Effect
  deriving DecidableEq

/-- The call `tx.signAndSend(this.#srKeyring, cb)` where `cb` resolves on the
first status with `isInBlock`. -/
def signAndSend (env : Env) (tx : Tx) : Run Unit :=
  ⟨if (env.txStatuses tx).any id then .resolved () else .pending, [.submit tx]⟩

/-- Reading `.buffer` of a field: a `TypeError` when the field is `undefined`. -/
def bufferOf : Option Bytes → Except JsError Bytes
  | none => .error .typeError
  | some bs => .ok bs

/-- The call `encodeAddress(x)` where `x` may be `null`; `null` is not a
decodable key and the codec throws. -/
def Env.encodeNullable (env : Env) : Option Bytes → Except JsError String
  | none => .error .codec
  | some bs => env.encodeAddress bs

/-- The call `this.#edKeyring.encryptMessage(msg, key)`, recorded as an effect. -/
def encryptCall (env : Env) (msg key : Bytes) : Js Bytes :=
  ⟨env.encryptMessage msg key, [.encrypt msg key]⟩

/-! ## Inbound event processing (constructor, lines 38-105) -/

/-- Which `client.events.templateModule.*.is(event)` test an event passes. -/
inductive EventKind where
  | offer
  | answer
  | other
  deriving DecidableEq, Repr

/-- An event record: `data0 .. data3` are `event.data[0] .. event.data[3]`. -/
structure Event where
  kind : EventKind
  data0 : Bytes
  data1 : Bytes
  data2 : Bytes
  data3 : Bytes
  deriving DecidableEq, Repr

/-- Effects of a `then` continuation whose derived promise nobody observes. -/
def Js.asContinuation (k : Js Unit) : List Effect :=
  match k.result with
  | .ok _ => k.trace
  | .error e => k.trace ++ [.unhandledRejection (.error e)]

/-- Lines 52-72: continuation of the sender lookup in the Offer branch. -/
def offerContinuation (env : Env) (ev : Event) (accountFrom : String) (value : Item) :
    Js Unit :=
  if !value.isEmpty then do
    let addrU8a ← Js.lift (bufferOf value.address)
    let offerBin := BinData.wrap ev.data0
    let (ln, offerBin) ← Js.lift offerBin.getUint16
    let (cryptOfferU8A, _) ← Js.lift (offerBin.getBuffer ln)
    let offerU8A ← Js.lift (env.decryptMessage cryptOfferU8A addrU8a)
    let offer ← Js.lift (decodeNullable offerU8A)
    let msgBin := BinData.wrap ev.data3
    let (msgLn, msgBin) ← Js.lift msgBin.getUint8
    let (welcomeMsg, _) ← Js.lift (msgBin.getString msgLn)
    let fromAddr ← Js.lift (env.encodeAddress addrU8a)
    Js.emit (.runOffer ⟨accountFrom, fromAddr, offer, welcomeMsg⟩)
  else pure ()

/-- Lines 46-51: the synchronous part of the Offer branch; it returns the
sender text address and the lookup key when the event is addressed here. -/
def offerGuard (env : Env) (ev : Event) : Js (Option (String × Bytes)) := do
  let accountFrom ← Js.lift (env.encodeAddress ev.data1)
  let accountTo ← Js.lift (env.encodeAddress ev.data2)
  if accountTo = env.edAddress then
    let key ← Js.lift (env.decodeAddress (.text accountFrom))
    Js.emit (.query (.itemByAccountIdStore key))
    pure (some (accountFrom, key))
  else pure none

/-- Lines 43-75: the Offer branch. -/
def offerBranch (env : Env) (ev : Event) : List Effect :=
  match (offerGuard env ev).result with
  | .error e => (offerGuard env ev).trace ++ [.thrown e]
  | .ok none => (offerGuard env ev).trace
  | .ok (some (accountFrom, key)) =>
    (offerGuard env ev).trace ++
      (offerContinuation env ev accountFrom (env.itemByAccountIdStore key)).asContinuation

/-- Lines 200-210: `getEdAddress(srAddress)` with the gate open. -/
def getEdAddress (env : Env) (srAddress : AddressArg) : Run Bytes :=
  match env.decodeAddress srAddress with
  | .error e => ⟨.rejected (.error e), []⟩
  | .ok addrBin =>
    match bufferOf (env.itemByAccountIdStore addrBin).address with
    | .ok buf => ⟨.resolved buf, [.query (.itemByAccountIdStore addrBin)]⟩
    | .error e =>
      ⟨.pending, [.query (.itemByAccountIdStore addrBin), .unhandledRejection (.error e)]⟩

/-- Lines 88-98: continuation of `getEdAddress` in the Answer branch. -/
def answerContinuation (env : Env) (accountFrom : String) (cryptOfferU8A : Bytes)
    (value : Bytes) : Js Unit :=
  if value.length ≠ 0 then do
    let addrU8a := value
    let offerU8A ← Js.lift (env.decryptMessage cryptOfferU8A addrU8a)
    let offer ← Js.lift (decodeNullable offerU8A)
    Js.emit (.runAnswer ⟨accountFrom, offer⟩)
  else pure ()

/-- Lines 79-86: the synchronous part of the Answer branch; it returns the
sender text address, the framed ciphertext and the raw sender address when
the event is addressed here. -/
def answerGuard (env : Env) (ev : Event) : Js (Option (String × Bytes × Bytes)) := do
  let accountFrom ← Js.lift (env.encodeAddress ev.data1)
  let accountTo ← Js.lift (env.encodeAddress ev.data2)
  if accountTo = env.edAddress then
    let offerBin := BinData.wrap ev.data0
    let (ln, offerBin) ← Js.lift offerBin.getUint16
    let (cryptOfferU8A, _) ← Js.lift (offerBin.getBuffer ln)
    let raw ← Js.lift (env.decodeAddress (.text accountFrom))
    pure (some (accountFrom, cryptOfferU8A, raw))
  else pure none

/-- Lines 78-103: the Answer branch. -/
def answerBranch (env : Env) (ev : Event) : List Effect :=
  match (answerGuard env ev).result with
  | .error e => (answerGuard env ev).trace ++ [.thrown e]
  | .ok none => (answerGuard env ev).trace
  | .ok (some (accountFrom, cryptOfferU8A, raw)) =>
    match (getEdAddress env (.raw raw)).outcome with
    | .resolved value =>
      (answerGuard env ev).trace ++ (getEdAddress env (.raw raw)).trace ++
        (answerContinuation env accountFrom cryptOfferU8A value).asContinuation
    | .rejected r =>
      (answerGuard env ev).trace ++ (getEdAddress env (.raw raw)).trace ++
        [.unhandledRejection r]
    | .pending => (answerGuard env ev).trace ++ (getEdAddress env (.raw raw)).trace

/-- Lines 39-104: the body of `events.forEach` for one record. -/
def onEvent (env : Env) (ev : Event) : List Effect :=
  match ev.kind with
  | .offer => offerBranch env ev
  | .answer => answerBranch env ev
  | .other => []

/-- Payloads handed to `this.#handlersOnRequest.run`, in order. -/
def offerRuns : List Effect → List OfferPayload
  | [] => []
  | .runOffer p :: es => p :: offerRuns es
  | _ :: es => offerRuns es

/-- Payloads handed to `this.#handlersOnAnswer.run`, in order. -/
def answerRuns : List Effect → List AnswerPayload
  | [] => []
  | .runAnswer p :: es => p :: answerRuns es
  | _ :: es => answerRuns es

/-- Errors that escaped: thrown out of a callback, or a rejection nobody
handles. -/
def escaped : List Effect → List Reason
  | [] => []
  | .thrown e :: es => .error e :: escaped es
  | .unhandledRejection r :: es => r :: escaped es
  | _ :: es => escaped es

/-- Transactions submitted, in order. -/
def submits : List Effect → List Tx
  | [] => []
  | .submit tx :: es => tx :: submits es
  | _ :: es => submits es

/-- Calls of `encryptMessage`, in order. -/
def encrypts : List Effect → List (Bytes × Bytes)
  | [] => []
  | .encrypt m k :: es => (m, k) :: encrypts es
  | _ :: es => encrypts es

/-! ## Outbound operations (the callbacks handed to `onReady`) -/

/-- Argument `edAddr` of `getUsername`: a text address or a keyring pair. -/
inductive EdAddrArg where
  | text (s : String)
  | pair (publicKey : Bytes)
  deriving DecidableEq, Repr

/-- Lines 130-139: continuation of the record lookup in `getUsername`. -/
def usernameOf (value : Item) : Except JsError (Option String) :=
  if !value.isEmpty then do
    let usernameU8a ← bufferOf value.nickname
    let ln := usernameU8a.headD 0
    pure (some (textDecode ((usernameU8a.drop 1).take ln)))
  else pure none

/-- Lines 117-143: `getUsername(edAddr)` with the gate open. -/
def getUsername (env : Env) (edAddr : EdAddrArg) : Run (Option String) :=
  let addrBin : Except JsError Bytes :=
    match edAddr with
    | .text s => env.decodeAddress (.text s)
    | .pair publicKey => .ok publicKey
  match addrBin with
  | .error e => ⟨.rejected (.error e), []⟩
  | .ok addrBin =>
    match usernameOf (env.itemByAccountIdStore addrBin) with
    | .ok username => ⟨.resolved username, [.query (.itemByAccountIdStore addrBin)]⟩
    | .error e =>
      ⟨.pending, [.query (.itemByAccountIdStore addrBin), .unhandledRejection (.error e)]⟩

/-- Lines 149-151 and 175-177: the nickname field built by `register` and by
`getAddress`. -/
def usernameField (username : String) : Except JsError Bytes := do
  let usernameBin := BinData.alloc 21
  let usernameBin ← usernameBin.setUint8 (jsLength username)
  let usernameBin ← usernameBin.setString username
  pure usernameBin.uint8Array

/-- Lines 145-165: `register(username, edAddr)` with the gate open;
`publicKey` is `edAddr.publicKey`. -/
def register (env : Env) (username : String) (publicKey : Bytes) : Run Unit :=
  match usernameField username with
  | .error e => ⟨.rejected (.error e), []⟩
  | .ok nickname => signAndSend env (.register nickname publicKey)

/-- Lines 172-193: `getAddress(username)` with the gate open. -/
def getAddress (env : Env) (username : String) : Run String :=
  match usernameField username with
  | .error e => ⟨.rejected (.error e), []⟩
  | .ok key =>
    if !(env.itemByNicknameStore key).isEmpty then
      match bufferOf (env.itemByNicknameStore key).value >>= env.encodeAddress with
      | .ok addrHex => ⟨.resolved addrHex, [.query (.itemByNicknameStore key)]⟩
      | .error e =>
        ⟨.pending, [.query (.itemByNicknameStore key), .unhandledRejection (.error e)]⟩
    else ⟨.rejected .undefined, [.query (.itemByNicknameStore key)]⟩

/-- A decoded contact. -/
structure Contact where
  address : String
  name : String
  deriving DecidableEq, Repr

/-- Lines 225-231: the body of the `try` block of `getContactList`. -/
def contactAttempt (env : Env) (addrCrypto nameCrypto : Bytes) : Except JsError Contact := do
  let own ← env.decodeAddress (.text env.edAddress)
  let addr ← env.decryptMessage addrCrypto own
  let own ← env.decodeAddress (.text env.edAddress)
  let name ← env.decryptMessage nameCrypto own
  let address ← env.encodeNullable addr
  let name ← decodeNullable name
  pure ⟨address, name⟩

/-- Lines 216-235: the callback of `contacts.map`; `none` is `null`.  The
raw read `getBuffer` of the absent `BinData.js` is a parameter: what it does
when the length prefix announces more bytes than the field holds decides
whether the two reads in front of the `try` block can throw. -/
def decodeContact (env : Env) (getBuffer : BinData → Nat → Except JsError (Bytes × BinData))
    (contact : ContactEntry) : Except JsError (Option Contact) := do
  let addrBin := BinData.wrap contact.args1
  let (addrLn, addrBin) ← addrBin.getUint16
  let (addrCrypto, _) ← getBuffer addrBin addrLn
  let nameBin := BinData.wrap contact.name
  let (nameLn, nameBin) ← nameBin.getUint16
  let (nameCrypto, _) ← getBuffer nameBin nameLn
  match contactAttempt env addrCrypto nameCrypto with
  | .ok c => pure (some c)
  | .error _ => pure none

/-- The call `contacts.map(...)`: the first throw aborts the whole map. -/
def mapContacts (env : Env) (getBuffer : BinData → Nat → Except JsError (Bytes × BinData)) :
    List ContactEntry → Except JsError (List (Option Contact))
  | [] => .ok []
  | c :: cs =>
    match decodeContact env getBuffer c with
    | .error e => .error e
    | .ok r =>
      match mapContacts env getBuffer cs with
      | .error e => .error e
      | .ok rs => .ok (r :: rs)

/-- Lines 212-241: `getContactList()` with the gate open. -/
def getContactList (env : Env) (getBuffer : BinData → Nat → Except JsError (Bytes × BinData)) :
    Run (List Contact) :=
  match env.decodeAddress (.text env.srAddress) with
  | .error e => ⟨.rejected (.error e), []⟩
  | .ok owner =>
    match mapContacts env getBuffer (env.contactEntries owner) with
    | .ok contactsData =>
      ⟨.resolved (contactsData.filterMap id), [.query (.contactByAccountIdStore owner)]⟩
    | .error e =>
      ⟨.pending, [.query (.contactByAccountIdStore owner), .unhandledRejection (.error e)]⟩

/-- Wire layout of a ciphertext blob (spec 6): `uint16 length` followed by
`length` raw bytes. -/
def framed16 (ct : Bytes) : Bytes := ct.length % 256 :: ct.length / 256 % 256 :: ct

/-- The two kinds of stored contact record: a valid one, whose two fields are
complete frames of ciphertexts that decode to a contact, and a truncated
one, whose fields keep their 2-byte prefixes `la`, `lb` in front of the
bytes `arest`, `nrest` that are left. -/
inductive RecordShape where
  | valid (addrCrypto nameCrypto : Bytes) (c : Contact)
  | truncated (la lb : Nat) (arest nrest : Bytes)
  deriving DecidableEq, Repr

/-- The record as the ledger returns it. -/
def RecordShape.entry : RecordShape → ContactEntry
  | .valid addrCrypto nameCrypto _ => ⟨framed16 addrCrypto, framed16 nameCrypto⟩
  | .truncated la lb arest nrest =>
    ⟨la % 256 :: la / 256 % 256 :: arest, lb % 256 :: lb / 256 % 256 :: nrest⟩

/-- The contact a record stands for; a truncated record stands for none. -/
def RecordShape.contact : RecordShape → Option Contact
  | .valid _ _ c => some c
  | .truncated _ _ _ _ => none

/-- Lines 250-263: the `then` callback of `addContact` up to the transaction
it submits.  The keyring converts the string `name` to its UTF-8 bytes. -/
def addContactBody (env : Env) (name : String) (srAddress : String) : Js Tx := do
  let addrBin := BinData.alloc 1000
  let decodedSrAddress ← Js.lift (env.decodeAddress (.text srAddress))
  let own ← Js.lift (env.decodeAddress (.text env.edAddress))
  let cryptAddrU8A ← encryptCall env decodedSrAddress own
  let addrBin ← Js.lift (addrBin.setUint16 cryptAddrU8A.length)
  let addrBin ← Js.lift (addrBin.setBuffer cryptAddrU8A)
  let usernameBin := BinData.alloc 1000
  let own ← Js.lift (env.decodeAddress (.text env.edAddress))
  let cryptNameU8A ← encryptCall env (textEncode name) own
  let usernameBin ← Js.lift (usernameBin.setUint16 cryptNameU8A.length)
  let usernameBin ← Js.lift (usernameBin.setBuffer cryptNameU8A)
  pure (.upsertContact usernameBin.uint8Array addrBin.uint8Array)

/-- The rejection message of `addContact` (line 276). -/
def notRegistered (username : String) : Reason :=
  .message ("Username " ++ username ++ " not registered")

/-- Lines 244-280: `addContact(username, name)` with the gate open:
`getAddress(username).then(body).catch(() => reject(...))`. -/
def addContact (env : Env) (username name : String) : Run Unit :=
  match (getAddress env username).outcome with
  | .resolved srAddress =>
    match (addContactBody env name srAddress).result with
    | .ok tx =>
      ⟨(signAndSend env tx).outcome,
        (getAddress env username).trace ++ (addContactBody env name srAddress).trace ++
          (signAndSend env tx).trace⟩
    | .error _ =>
      ⟨.rejected (notRegistered username),
        (getAddress env username).trace ++ (addContactBody env name srAddress).trace⟩
  | .rejected _ => ⟨.rejected (notRegistered username), (getAddress env username).trace⟩
  | .pending => ⟨.pending, (getAddress env username).trace⟩

/-- Argument of `createOffer`; `toAddr` is `cfg.to`. -/
structure OfferCfg where
  toAddr : String
  offer : String
  welcomeMsg : String
  deriving DecidableEq, Repr

/-- Lines 300-312: the `then` callback of `createOffer` up to the transaction
it submits. -/
def createOfferBody (env : Env) (cfg : OfferCfg) (edAddress : Bytes) : Js Tx := do
  let offerU8A := textEncode cfg.offer
  let cryptOfferU8A ← encryptCall env offerU8A edAddress
  let offerBin := BinData.alloc 2048
  let offerBin ← Js.lift (offerBin.setUint16 cryptOfferU8A.length)
  let offerBin ← Js.lift (offerBin.setBuffer cryptOfferU8A)
  let welcomeMsgBin := BinData.alloc 300
  let welcomeMsgBin ← Js.lift (welcomeMsgBin.setUint8 (jsLength cfg.welcomeMsg))
  let welcomeMsgBin ← Js.lift (welcomeMsgBin.setString cfg.welcomeMsg)
  pure (.offerChat welcomeMsgBin.uint8Array offerBin.uint8Array edAddress)

/-- Lines 292-327: `createOffer(cfg)` with the gate open:
`getEdAddress(cfg.to).then(body)`, a promise built from `resolve` alone. -/
def createOffer (env : Env) (cfg : OfferCfg) : Run Unit :=
  match (getEdAddress env (.text cfg.toAddr)).outcome with
  | .resolved edAddress =>
    match (createOfferBody env cfg edAddress).result with
    | .ok tx =>
      ⟨(signAndSend env tx).outcome,
        (getEdAddress env (.text cfg.toAddr)).trace ++
          (createOfferBody env cfg edAddress).trace ++ (signAndSend env tx).trace⟩
    | .error e =>
      ⟨.pending,
        (getEdAddress env (.text cfg.toAddr)).trace ++
          (createOfferBody env cfg edAddress).trace ++ [.unhandledRejection (.error e)]⟩
  | .rejected r =>
    ⟨.pending, (getEdAddress env (.text cfg.toAddr)).trace ++ [.unhandledRejection r]⟩
  | .pending => ⟨.pending, (getEdAddress env (.text cfg.toAddr)).trace⟩

/-- Argument of `createAnswer`; `toAddr` is `cfg.to`. -/
structure AnswerCfg where
  toAddr : String
  offer : String
  deriving DecidableEq, Repr

/-- Lines 338-347: the body of `createAnswer` up to the transaction it
submits. -/
def createAnswerBody (env : Env) (cfg : AnswerCfg) : Js Tx := do
  let answerBin := BinData.alloc 2048
  let offerU8A := textEncode cfg.offer
  let dest ← Js.lift (env.decodeAddress (.text cfg.toAddr))
  let cryptOfferU8A ← encryptCall env offerU8A dest
  let answerBin ← Js.lift (answerBin.setUint16 cryptOfferU8A.length)
  let answerBin ← Js.lift (answerBin.setBuffer cryptOfferU8A)
  pure (.answerChat answerBin.uint8Array cfg.toAddr)

/-- Lines 335-360: `createAnswer(cfg)` with the gate open. -/
def createAnswer (env : Env) (cfg : AnswerCfg) : Run Unit :=
  match (createAnswerBody env cfg).result with
  | .ok tx =>
    ⟨(signAndSend env tx).outcome, (createAnswerBody env cfg).trace ++ (signAndSend env tx).trace⟩
  | .error e => ⟨.rejected (.error e), (createAnswerBody env cfg).trace⟩

/-! ## The ready gate and the constructor (lines 35-109) -/

/-- The eight operations that hand their body to `this.#readyState.onReady`. -/
inductive OpCall where
  | getUsername (edAddr : EdAddrArg)
  | register (username : String) (publicKey : Bytes)
  | getAddress (username : String)
  | getEdAddress (srAddress : AddressArg)
  | getContactList
  | addContact (username name : String)
  | createOffer (cfg : OfferCfg)
  | createAnswer (cfg : AnswerCfg)
  deriving DecidableEq, Repr

/-- Effects of the callback an operation hands to `onReady`, once it runs. -/
def OpCall.effects (env : Env) : OpCall → List Effect
  | .getUsername edAddr => (Blockchain.getUsername env edAddr).trace
  | .register username publicKey => (Blockchain.register env username publicKey).trace
  | .getAddress username => (Blockchain.getAddress env username).trace
  | .getEdAddress srAddress => (Blockchain.getEdAddress env srAddress).trace
  | .getContactList => (Blockchain.getContactList env BinData.getBuffer).trace
  | .addContact username name => (Blockchain.addContact env username name).trace
  | .createOffer cfg => (Blockchain.createOffer env cfg).trace
  | .createAnswer cfg => (Blockchain.createAnswer env cfg).trace

/-- Effects of a list of queued callbacks run in order. -/
def drain (env : Env) : List OpCall → List Effect
  | [] => []
  | op :: ops => op.effects env ++ drain env ops

/-- Entries of the execution log of one `Blockchain` instance. -/
inductive LogEntry where
  | subscribed
  | readySignal
  | effect (e : Effect)
  deriving DecidableEq, Repr

/-- One `Blockchain` instance: whether `this.#client` is set, the state of
`this.#readyState` with its queued callbacks, and the log so far.  The gate
is the external `State` object, taken by its contract (spec 4.2): `onReady`
runs the callback at once when ready and queues it otherwise, the first
`ready()` runs the queue in order. -/
structure System where
  client : Bool
  ready : Bool
  queue : List OpCall
  log : List LogEntry

/-- State right after the constructor returns. -/
def System.init : System := ⟨false, false, [], []⟩

/-- What can happen to an instance; the environment is the state of the
collaborators when it happens. -/
inductive Step where
  | call (env : Env) (op : OpCall)
  | connected (env : Env)
  | deliver (env : Env) (ev : Event)

/-- The call `this.#readyState.onReady(callback)` made by an operation. -/
def System.onReady (sys : System) (env : Env) (op : OpCall) : System :=
  if sys.ready then { sys with log := sys.log ++ (op.effects env).map .effect }
  else { sys with queue := sys.queue ++ [op] }

/-- The call `this.#readyState.ready()` (line 107). -/
def System.signalReady (sys : System) (env : Env) : System :=
  if sys.ready then sys
  else
    { sys with
      ready := true
      queue := []
      log := sys.log ++ [.readySignal] ++ (drain env sys.queue).map .effect }

/-- One step: an operation is called; the `api.then` callback of lines 36-108
runs (once), installing the event subscription and then signalling
readiness; the subscription delivers an event. -/
def System.step (sys : System) : Step → System
  | .call env op => sys.onReady env op
  | .connected env =>
    if sys.client then sys
    else System.signalReady { sys with client := true, log := sys.log ++ [.subscribed] } env
  | .deliver env ev =>
    if sys.client then { sys with log := sys.log ++ (onEvent env ev).map .effect }
    else sys

/-- Run a list of steps. -/
def System.run (sys : System) : List Step → System
  | [] => sys
  | st :: sts => (sys.step st).run sts

/-! ## A reference environment -/

namespace Sample

/-- Lower-case hexadecimal digit. -/
def hexDigit (n : Nat) : Char := if n < 10 then Char.ofNat (48 + n) else Char.ofNat (87 + n)

/-- Hexadecimal rendering of a byte list. -/
def toHex : Bytes → List Char
  | [] => []
  | b :: bs => hexDigit (b / 16 % 16) :: hexDigit (b % 16) :: toHex bs

/-- Value of a hexadecimal digit. -/
def hexValue (c : Char) : Option Nat :=
  if 48 ≤ c.toNat ∧ c.toNat ≤ 57 then some (c.toNat - 48)
  else if 97 ≤ c.toNat ∧ c.toNat ≤ 102 then some (c.toNat - 87)
  else none

/-- Inverse of `toHex`. -/
def fromHex : List Char → Option Bytes
  | [] => some []
  | [_] => none
  | a :: b :: rest =>
    match hexValue a, hexValue b, fromHex rest with
    | some x, some y, some r => some ((16 * x + y) :: r)
    | _, _, _ => none

/-- A text address codec for 32-byte keys. -/
def encodeAddress (bs : Bytes) : Except JsError String :=
  if bs.length = 32 then .ok ⟨toHex bs⟩ else .error .codec

/-- Inverse of `encodeAddress`; anything else throws. -/
def decodeText (s : String) : Except JsError Bytes :=
  match fromHex s.data with
  | some bs => if bs.length = 32 then .ok bs else .error .codec
  | none => .error .codec

/-- Tag shared by two encryption keys. -/
def sharedTag (a b : Bytes) : Bytes := List.zipWith (fun x y => (x + y) % 256) a b

/-- A box cipher for the holder of `own`: the shared tag followed by the
message; a key that is not 32 bytes long throws. -/
def boxSeal (own msg key : Bytes) : Except JsError Bytes :=
  if key.length = 32 then .ok (sharedTag own key ++ msg) else .error .crypto

/-- Opening a box yields `null` when the tag does not match. -/
def boxOpen (own ct key : Bytes) : Except JsError (Option Bytes) :=
  if key.length = 32 ∧ ct.take 32 = sharedTag own key ∧ 32 ≤ ct.length then
    .ok (some (ct.drop 32))
  else .ok none

/-- A registration record held by the ledger. -/
structure Registration where
  sr : Bytes
  ed : Bytes
  nickname : Bytes
  deriving DecidableEq, Repr

/-- Ledger contents; `absent` is what the client returns for a signing
identity without a record. -/
structure Ledger where
  registrations : List Registration
  contacts : List ContactEntry
  absent : Item

/-- Query by signing identity. -/
def Ledger.item (l : Ledger) (key : Bytes) : Item :=
  match l.registrations.find? (fun r => r.sr = key) with
  | some r => ⟨false, some r.ed, some r.nickname⟩
  | none => l.absent

/-- Query by nickname field. -/
def Ledger.byNickname (l : Ledger) (key : Bytes) : NicknameEntry :=
  match l.registrations.find? (fun r => r.nickname = key) with
  | some r => ⟨false, some r.sr⟩
  | none => ⟨true, none⟩

/-- The process holding the keys `ed` and `sr`, connected to ledger `l`. -/
def processEnv (ed sr : Bytes) (l : Ledger) : Env where
  edAddress := ⟨toHex ed⟩
  srAddress := ⟨toHex sr⟩
  encodeAddress := encodeAddress
  decodeText := decodeText
  encryptMessage := boxSeal ed
  decryptMessage := boxOpen ed
  itemByAccountIdStore := l.item
  itemByNicknameStore := l.byNickname
  contactEntries := fun _ => l.contacts
  txStatuses := fun _ => [false, true]

/-- Signing key of Alice. -/
def aliceSr : Bytes := List.replicate 32 1
/-- Encryption key of Alice. -/
def aliceEd : Bytes := List.replicate 32 2
/-- Signing key of Bob. -/
def bobSr : Bytes := List.replicate 32 3
/-- Encryption key of Bob. -/
def bobEd : Bytes := List.replicate 32 4
/-- Encryption key of a third party. -/
def carolEd : Bytes := List.replicate 32 6

/-- Nickname field of `"alice"`. -/
def aliceNick : Bytes := [5, 97, 108, 105, 99, 101]
/-- Nickname field of `"bob"`. -/
def bobNick : Bytes := [3, 98, 111, 98]

/-- An empty record as a value whose fields are undefined. -/
def absentUndefined : Item := ⟨true, none, none⟩
/-- An empty record as a default value with empty fields. -/
def absentDefault : Item := ⟨true, some [], some []⟩

/-- Only Alice is registered. -/
def ledgerAlice : Ledger := ⟨[⟨aliceSr, aliceEd, aliceNick⟩], [], absentDefault⟩
/-- Only Alice is registered, empty records have undefined fields. -/
def ledgerAliceU : Ledger := ⟨[⟨aliceSr, aliceEd, aliceNick⟩], [], absentUndefined⟩
/-- Alice and Bob are registered. -/
def ledgerBoth : Ledger :=
  ⟨[⟨aliceSr, aliceEd, aliceNick⟩, ⟨bobSr, bobEd, bobNick⟩], [], absentDefault⟩

/-- Signing key of Carol. -/
def carolSr : Bytes := List.replicate 32 5
/-- Signing key of Dave. -/
def daveSr : Bytes := List.replicate 32 7
/-- Signing key of Erin. -/
def erinSr : Bytes := List.replicate 32 8

/-- A field with its 2-byte little-endian length prefix. -/
def frame (ct : Bytes) : Bytes := [ct.length % 256, ct.length / 256 % 256] ++ ct

/-- A contact record as Alice stores it: address and name sealed to her own key. -/
def contactOf (addr : Bytes) (name : String) : ContactEntry :=
  ⟨frame (sharedTag aliceEd aliceEd ++ addr), frame (sharedTag aliceEd aliceEd ++ textEncode name)⟩

/-- The same record after the stored name ciphertext lost its last two bytes. -/
def truncatedContact (addr : Bytes) (name : String) : ContactEntry :=
  ⟨(contactOf addr name).args1, (contactOf addr name).name.dropLast.dropLast⟩

/-- Three valid contact records. -/
def ledgerThree : Ledger :=
  ⟨[⟨aliceSr, aliceEd, aliceNick⟩],
    [contactOf bobSr "Bob", contactOf carolSr "Carol", contactOf erinSr "Erin"], absentDefault⟩

/-- The same three valid records and one truncated record. -/
def ledgerFour : Ledger :=
  ⟨[⟨aliceSr, aliceEd, aliceNick⟩],
    [contactOf bobSr "Bob", contactOf carolSr "Carol", truncatedContact daveSr "Dave",
      contactOf erinSr "Erin"], absentDefault⟩

/-- A record whose nickname field is what `register` submits for `"é"`. -/
def ledgerAccent : Ledger := ⟨[⟨carolSr, carolEd, [1, 0xC3, 0xA9]⟩], [], absentDefault⟩

/-- A raw read that returns the bytes available, like `ArrayBuffer.slice`. -/
def sliceBuffer (bin : BinData) (len : Nat) : Except JsError (Bytes × BinData) :=
  .ok ((bin.buffer.drop bin.cursor).take len, ⟨bin.buffer, bin.cursor + len⟩)

/-- The stored records of `ledgerCut`: three valid ones and one whose name
ciphertext of 36 bytes was cut down to 10. -/
def shapesCut : List RecordShape :=
  [.valid (sharedTag aliceEd aliceEd ++ bobSr) (sharedTag aliceEd aliceEd ++ textEncode "Bob")
      ⟨⟨toHex bobSr⟩, "Bob"⟩,
    .valid (sharedTag aliceEd aliceEd ++ carolSr)
      (sharedTag aliceEd aliceEd ++ textEncode "Carol") ⟨⟨toHex carolSr⟩, "Carol"⟩,
    .truncated 64 36 (sharedTag aliceEd aliceEd ++ daveSr) (List.replicate 10 4),
    .valid (sharedTag aliceEd aliceEd ++ erinSr)
      (sharedTag aliceEd aliceEd ++ textEncode "Erin") ⟨⟨toHex erinSr⟩, "Erin"⟩]

/-- Three valid contact records and one truncated record. -/
def ledgerCut : Ledger :=
  ⟨[⟨aliceSr, aliceEd, aliceNick⟩], shapesCut.map RecordShape.entry, absentDefault⟩

/-- Alice's process; Alice and Bob are registered. -/
def alice : Env := processEnv aliceEd aliceSr ledgerBoth
/-- Bob's process; Alice and Bob are registered. -/
def bob : Env := processEnv bobEd bobSr ledgerBoth
/-- Alice's process while Bob is not registered. -/
def aliceOnly : Env := processEnv aliceEd aliceSr ledgerAlice
/-- Bob's process while only Alice is registered. -/
def bobNew : Env := processEnv bobEd bobSr ledgerAlice
/-- Bob's process while only Alice is registered and empty records have
undefined fields. -/
def bobNewU : Env := processEnv bobEd bobSr ledgerAliceU
/-- Bob's process with a locked keyring: `encryptMessage` throws. -/
def bobLocked : Env := { bob with encryptMessage := fun _ _ => .error .crypto }

/-- Text address of a key. -/
def addr (key : Bytes) : String := ⟨toHex key⟩

/-- An Offer event from Bob addressed to Carol. -/
def offerToCarol : Event :=
  ⟨.offer, frame (sharedTag bobEd carolEd ++ [79, 75]), bobSr, carolEd, [2, 104, 105]⟩

/-- An Offer event from Bob addressed to Alice whose payload is sealed to
Carol's key. -/
def wrongKeyOffer : Event :=
  ⟨.offer, frame (sharedTag bobEd carolEd ++ [79, 75]), bobSr, aliceEd, [2, 104, 105]⟩

/-- An Answer event from Bob to Alice carrying `"OK"`. -/
def answerToAlice : Event :=
  ⟨.answer, frame (sharedTag bobEd aliceEd ++ [79, 75]), bobSr, aliceEd, []⟩

/-- The same payload in an Answer event whose recipient field is Carol's key. -/
def answerToCarol : Event :=
  ⟨.answer, frame (sharedTag bobEd aliceEd ++ [79, 75]), bobSr, carolEd, []⟩

/-- The call `createOffer(cfg)` of the end-to-end scenario. -/
def offerCfg : OfferCfg := ⟨addr aliceSr, "SDP-OFFER-1", "hi"⟩

/-- The nickname is 1000 letters long. -/
def longName : String := ⟨List.replicate 1000 'a'⟩

end Sample

/-! ## Theorems: text codec -/

set_option maxRecDepth 8192

theorem char_range (c : Char) :
    c.toNat < 0xD800 ∨ (0xDFFF < c.toNat ∧ c.toNat < 0x110000) := by
  have h := c.valid
  simp only [UInt32.isValidChar, Nat.isValidChar] at h
  exact h

theorem utf8Decode_one (b : Nat) (rest : Bytes) (h : b ≤ 0x7F) :
    utf8Decode Utf8State.init (b :: rest) = Char.ofNat b :: utf8Decode Utf8State.init rest := by
  simp [utf8Decode, utf8Step, utf8Start, Utf8State.init, h]

theorem utf8Decode_two (b0 b1 : Nat) (rest : Bytes) (h0 : 0xC2 ≤ b0) (h0u : b0 ≤ 0xDF)
    (h1 : 0x80 ≤ b1) (h1u : b1 ≤ 0xBF) :
    utf8Decode Utf8State.init (b0 :: b1 :: rest) =
      Char.ofNat (b0 % 32 * 64 + b1 % 64) :: utf8Decode Utf8State.init rest := by
  have a1 : ¬ b0 ≤ 0x7F := by omega
  have a2 : ¬ b1 < 0x80 := by omega
  have a3 : ¬ 0xBF < b1 := by omega
  simp [utf8Decode, utf8Step, utf8Start, Utf8State.init, a1, a2, a3, h0, h0u]

theorem utf8Decode_three (b0 b1 b2 : Nat) (rest : Bytes) (h0 : 0xE0 ≤ b0) (h0u : b0 ≤ 0xEF)
    (h1 : 0x80 ≤ b1) (h1u : b1 ≤ 0xBF) (hl : b0 = 0xE0 → 0xA0 ≤ b1) (hu : b0 = 0xED → b1 ≤ 0x9F)
    (h2 : 0x80 ≤ b2) (h2u : b2 ≤ 0xBF) :
    utf8Decode Utf8State.init (b0 :: b1 :: b2 :: rest) =
      Char.ofNat ((b0 % 16 * 64 + b1 % 64) * 64 + b2 % 64) :: utf8Decode Utf8State.init rest := by
  have a1 : ¬ b0 ≤ 0x7F := by omega
  have a1b : ¬ (0xC2 ≤ b0 ∧ b0 ≤ 0xDF) := by omega
  have a2 : ¬ b2 < 0x80 := by omega
  have a3 : ¬ 0xBF < b2 := by omega
  have a4 : ¬ (b1 < (if b0 = 0xE0 then 0xA0 else 0x80) ∨ (if b0 = 0xED then 0x9F else 0xBF) < b1) := by
    split_ifs <;> omega
  simp only [utf8Decode, utf8Step, utf8Start, Utf8State.init, a1, a1b, h0, h0u, and_self, if_true, if_false, a4]
  simp [a2, a3]

theorem utf8Decode_four (b0 b1 b2 b3 : Nat) (rest : Bytes) (h0 : 0xF0 ≤ b0) (h0u : b0 ≤ 0xF4)
    (h1 : 0x80 ≤ b1) (h1u : b1 ≤ 0xBF) (hl : b0 = 0xF0 → 0x90 ≤ b1) (hu : b0 = 0xF4 → b1 ≤ 0x8F)
    (h2 : 0x80 ≤ b2) (h2u : b2 ≤ 0xBF) (h3 : 0x80 ≤ b3) (h3u : b3 ≤ 0xBF) :
    utf8Decode Utf8State.init (b0 :: b1 :: b2 :: b3 :: rest) =
      Char.ofNat (((b0 % 8 * 64 + b1 % 64) * 64 + b2 % 64) * 64 + b3 % 64) ::
        utf8Decode Utf8State.init rest := by
  have a1 : ¬ b0 ≤ 0x7F := by omega
  have a1b : ¬ (0xC2 ≤ b0 ∧ b0 ≤ 0xDF) := by omega
  have a1c : ¬ (0xE0 ≤ b0 ∧ b0 ≤ 0xEF) := by omega
  have a2 : ¬ b2 < 0x80 := by omega
  have a3 : ¬ 0xBF < b2 := by omega
  have a5 : ¬ b3 < 0x80 := by omega
  have a6 : ¬ 0xBF < b3 := by omega
  have a4 : ¬ (b1 < (if b0 = 0xF0 then 0x90 else 0x80) ∨ (if b0 = 0xF4 then 0x8F else 0xBF) < b1) := by
    split_ifs <;> omega
  simp only [utf8Decode, utf8Step, utf8Start, Utf8State.init, a1, a1b, a1c, h0, h0u, and_self, if_true, if_false, a4]
  simp [a2, a3, a5, a6]

theorem utf8Decode_encodeChar (c : Char) (rest : Bytes) :
    utf8Decode Utf8State.init (utf8EncodeChar c ++ rest) =
      c :: utf8Decode Utf8State.init rest := by
  have hr := char_range c
  have hc : Char.ofNat c.toNat = c := Char.ofNat_toNat c
  generalize hv : c.toNat = v at hr hc
  unfold utf8EncodeChar
  rw [hv]
  by_cases h1 : v < 0x80
  · rw [if_pos h1]
    show utf8Decode Utf8State.init (v :: rest) = _
    rw [utf8Decode_one v rest (by omega), hc]
  · rw [if_neg h1]
    by_cases h2 : v < 0x800
    · rw [if_pos h2]
      show utf8Decode Utf8State.init ((0xC0 + v / 64) :: (0x80 + v % 64) :: rest) = _
      rw [utf8Decode_two _ _ rest (by omega) (by omega) (by omega) (by omega)]
      have : (0xC0 + v / 64) % 32 * 64 + (0x80 + v % 64) % 64 = v := by omega
      rw [this, hc]
    · rw [if_neg h2]
      by_cases h3 : v < 0x10000
      · rw [if_pos h3]
        show utf8Decode Utf8State.init
          ((0xE0 + v / 4096) :: (0x80 + v / 64 % 64) :: (0x80 + v % 64) :: rest) = _
        rw [utf8Decode_three _ _ _ rest (by omega) (by omega) (by omega) (by omega) (by omega)
          (by omega) (by omega) (by omega)]
        have : ((0xE0 + v / 4096) % 16 * 64 + (0x80 + v / 64 % 64) % 64) * 64 +
            (0x80 + v % 64) % 64 = v := by omega
        rw [this, hc]
      · rw [if_neg h3]
        show utf8Decode Utf8State.init
          ((0xF0 + v / 262144) :: (0x80 + v / 4096 % 64) :: (0x80 + v / 64 % 64) ::
            (0x80 + v % 64) :: rest) = _
        rw [utf8Decode_four _ _ _ _ rest (by omega) (by omega) (by omega) (by omega) (by omega)
          (by omega) (by omega) (by omega) (by omega) (by omega)]
        have : (((0xF0 + v / 262144) % 8 * 64 + (0x80 + v / 4096 % 64) % 64) * 64 +
            (0x80 + v / 64 % 64) % 64) * 64 + (0x80 + v % 64) % 64 = v := by omega
        rw [this, hc]

theorem utf8Decode_encodeChars (cs : List Char) :
    utf8Decode Utf8State.init (encodeChars cs) = cs := by
  induction cs with
  | nil => simp [encodeChars, utf8Decode, Utf8State.init]
  | cons c cs ih => rw [encodeChars, utf8Decode_encodeChar, ih]

theorem stripBOM_encodeChars (cs : List Char) (h : cs.head? ≠ some (Char.ofNat 0xFEFF)) :
    stripBOM (encodeChars cs) = encodeChars cs := by
  unfold stripBOM
  rw [if_neg]
  intro hb
  cases cs with
  | nil => simp [encodeChars] at hb
  | cons c cs =>
    apply h
    have hr := char_range c
    have hc : Char.ofNat c.toNat = c := Char.ofNat_toNat c
    simp only [List.head?_cons, Option.some.injEq]
    rw [← hc]
    congr 1
    simp only [encodeChars, utf8EncodeChar] at hb
    generalize c.toNat = v at hr hb ⊢
    split_ifs at hb with h1 h2 h3
    · simp at hb; omega
    · simp at hb; omega
    · simp only [List.cons_append, List.nil_append, List.take_succ_cons, List.take_zero,
        List.cons.injEq, and_true] at hb
      omega
    · simp at hb; omega

theorem textDecode_textEncode (s : String) (h : s.data.head? ≠ some (Char.ofNat 0xFEFF)) :
    textDecode (textEncode s) = s := by
  unfold textDecode textEncode
  rw [stripBOM_encodeChars _ h, utf8Decode_encodeChars]

theorem encodeChars_ascii_length (cs : List Char) (h : ∀ c ∈ cs, c.toNat < 0x80) :
    (encodeChars cs).length = cs.length := by
  induction cs with
  | nil => rfl
  | cons c cs ih =>
    have hc : c.toNat < 0x80 := h c (List.mem_cons_self _ _)
    have ih2 := ih (fun d hd => h d (List.mem_cons_of_mem _ hd))
    simp [encodeChars, utf8EncodeChar, hc, ih2]

theorem unitsOf_ascii (cs : List Char) (h : ∀ c ∈ cs, c.toNat < 0x80) :
    unitsOf cs = cs.length := by
  induction cs with
  | nil => rfl
  | cons c cs ih =>
    have hc : c.toNat < 0x10000 := by
      have := h c (List.mem_cons_self _ _); omega
    have ih2 := ih (fun d hd => h d (List.mem_cons_of_mem _ hd))
    simp [unitsOf, utf16Units, hc, ih2]; omega

theorem ascii_head_ne_bom (cs : List Char) (h : ∀ c ∈ cs, c.toNat < 0x80) :
    cs.head? ≠ some (Char.ofNat 0xFEFF) := by
  cases cs with
  | nil => simp
  | cons c cs =>
    have hc := h c (List.mem_cons_self _ _)
    intro hh
    simp only [List.head?_cons, Option.some.injEq] at hh
    rw [hh] at hc
    revert hc
    decide

/-- A leading byte order mark of the offer is removed by the decoder. -/
theorem offer_bom_stripped :
    textDecode (textEncode ⟨[Char.ofNat 0xFEFF, 'v']⟩) = "v" := by
  decide

/-! ## Theorems: BinData framing -/

theorem BinData.write_ok (bin : BinData) (bs : Bytes)
    (h : bin.cursor + bs.length ≤ bin.buffer.length) :
    bin.write bs = .ok ⟨bin.buffer.take bin.cursor ++ bs ++
      bin.buffer.drop (bin.cursor + bs.length), bin.cursor + bs.length⟩ := by
  simp [BinData.write, h]

theorem BinData.alloc_write_two (n : Nat) (xs ys : Bytes) (h : xs.length + ys.length ≤ n) :
    ∃ b1 bin, (BinData.alloc n).write xs = .ok b1 ∧ b1.write ys = .ok bin ∧
      bin.uint8Array = xs ++ ys := by
  have h1 : (BinData.alloc n).cursor + xs.length ≤ (BinData.alloc n).buffer.length := by
    simp [BinData.alloc]; omega
  refine ⟨_, _, BinData.write_ok _ _ h1, BinData.write_ok _ _ ?_, ?_⟩
  · simp [BinData.alloc]; omega
  · simp [BinData.uint8Array, BinData.alloc, List.take_append_eq_append_take]

theorem BinData.getUint16_frame (l : Nat) (rest : Bytes) (h : l < 65536) :
    (BinData.wrap (l % 256 :: l / 256 % 256 :: rest)).getUint16 =
      .ok (l, ⟨l % 256 :: l / 256 % 256 :: rest, 2⟩) := by
  simp [BinData.getUint16, BinData.read, BinData.wrap]
  omega

theorem BinData.getBuffer_frame (a b : Nat) (ct : Bytes) :
    (BinData.mk (a :: b :: ct) 2).getBuffer ct.length = .ok (ct, ⟨a :: b :: ct, 2 + ct.length⟩) := by
  have h : 2 + ct.length ≤ ct.length + 1 + 1 := by omega
  simp [BinData.getBuffer, BinData.read, h]

theorem BinData.getUint8_frame (n : Nat) (rest : Bytes) :
    (BinData.wrap (n :: rest)).getUint8 = .ok (n, ⟨n :: rest, 1⟩) := by
  simp [BinData.getUint8, BinData.read, BinData.wrap]

theorem BinData.getString_frame (n : Nat) (bs : Bytes) :
    (BinData.mk (n :: bs) 1).getString bs.length = .ok (textDecode bs, ⟨n :: bs, 1 + bs.length⟩) := by
  have h : 1 + bs.length ≤ bs.length + 1 := by omega
  simp [BinData.getString, BinData.read, h]

/-! ## Theorems: Offer events -/

@[simp] theorem js_bind {α β : Type} (x : Js α) (f : α → Js β) :
    (x >>= f) = Js.andThen x f := rfl

@[simp] theorem js_pure {α : Type} (a : α) : (pure a : Js α) = Js.ret a := rfl

/-- C1: an Offer event whose recipient field does not render to the local
encryption address never reaches the Offer handler pool, whatever the ledger
holds and whatever the other fields are. -/
theorem offer_other_recipient_no_run (env : Env) (ev : Event)
    (hkind : ev.kind = .offer)
    (hto : env.encodeAddress ev.data2 ≠ .ok env.edAddress) :
    offerRuns (onEvent env ev) = [] := by
  simp only [onEvent, hkind, offerBranch, offerGuard]
  cases h1 : env.encodeAddress ev.data1 with
  | error e => simp [Js.andThen, Js.lift, offerRuns]
  | ok accountFrom =>
    cases h2 : env.encodeAddress ev.data2 with
    | error e => simp [Js.andThen, Js.lift, offerRuns]
    | ok accountTo =>
      have hne : accountTo ≠ env.edAddress := by
        intro h; apply hto; rw [h2, h]
      simp [Js.andThen, Js.lift, offerRuns, hne, Js.ret]

theorem offer_other_recipient_no_run_witness :
    offerRuns (onEvent Sample.alice Sample.offerToCarol) = [] :=
  offer_other_recipient_no_run Sample.alice Sample.offerToCarol rfl (by decide)

/-- C2: the Offer event `wrongKeyOffer` is addressed to Alice, its sender Bob
is registered, its ciphertext is well framed and `decryptMessage` returns
`null` for it.  No handler is run, but the continuation of the sender lookup
throws a `TypeError` that nothing handles. -/
theorem offer_wrong_key_unhandled :
    Sample.alice.encodeAddress Sample.wrongKeyOffer.data2 = .ok Sample.alice.edAddress ∧
      (Sample.alice.itemByAccountIdStore Sample.bobSr).isEmpty = false ∧
      Sample.alice.decryptMessage (Sample.sharedTag Sample.bobEd Sample.carolEd ++ [79, 75])
        Sample.bobEd = .ok none ∧
      offerRuns (onEvent Sample.alice Sample.wrongKeyOffer) = [] ∧
      escaped (onEvent Sample.alice Sample.wrongKeyOffer) = [.error .typeError] := by
  decide

/-- Whenever the Offer branch reaches `decryptMessage` and the keyring
returns `null` or throws, an error escapes. -/
theorem offer_decrypt_failure_escapes (env : Env) (ev : Event) (accountFrom : String)
    (key ed ct : Bytes) (nick : Option Bytes) (ln : Nat) (bin bin2 : BinData)
    (hkind : ev.kind = .offer)
    (hfrom : env.encodeAddress ev.data1 = .ok accountFrom)
    (hto : env.encodeAddress ev.data2 = .ok env.edAddress)
    (hkey : env.decodeText accountFrom = .ok key)
    (hrec : env.itemByAccountIdStore key = ⟨false, some ed, nick⟩)
    (hln : (BinData.wrap ev.data0).getUint16 = .ok (ln, bin))
    (hct : bin.getBuffer ln = .ok (ct, bin2))
    (hdec : env.decryptMessage ct ed = .ok none ∨ ∃ e, env.decryptMessage ct ed = .error e) :
    offerRuns (onEvent env ev) = [] ∧ escaped (onEvent env ev) ≠ [] := by
  rcases hdec with hdec | ⟨e, hdec⟩ <;>
    simp [onEvent, offerBranch, offerGuard, hkind, hfrom, hto, Js.andThen, Js.lift, Js.ret,
      Js.emit, Env.decodeAddress, hkey, hrec, offerContinuation, bufferOf, hln, hct, hdec,
      decodeNullable, Js.asContinuation, offerRuns, escaped]

/-! ## Theorems: offer round trip -/

theorem createOffer_submits (env : Env) (cfg : OfferCfg) (srA edA ct : Bytes)
    (hto : env.decodeText cfg.toAddr = .ok srA)
    (hregA : (env.itemByAccountIdStore srA).address = some edA)
    (henc : env.encryptMessage (textEncode cfg.offer) edA = .ok ct)
    (hlen : ct.length ≤ 2046)
    (hwlen : (textEncode cfg.welcomeMsg).length ≤ 299) :
    submits (createOffer env cfg).trace =
      [.offerChat (jsLength cfg.welcomeMsg % 256 :: textEncode cfg.welcomeMsg)
        (ct.length % 256 :: ct.length / 256 % 256 :: ct) edA] := by
  obtain ⟨o1, o2, ho1, ho2, ho3⟩ :=
    BinData.alloc_write_two 2048 [ct.length % 256, ct.length / 256 % 256] ct
      (by rw [List.length_cons, List.length_singleton]; omega)
  obtain ⟨w1, w2, hw1, hw2, hw3⟩ :=
    BinData.alloc_write_two 300 [jsLength cfg.welcomeMsg % 256] (textEncode cfg.welcomeMsg)
      (by rw [List.length_singleton]; omega)
  simp [createOffer, getEdAddress, Env.decodeAddress, hto, hregA, bufferOf, createOfferBody,
    encryptCall, henc, Js.andThen, Js.lift, Js.ret, BinData.setUint16, BinData.setBuffer,
    BinData.setUint8, BinData.setString, ho1, ho2, hw1, hw2, signAndSend, submits, ho3, hw3]

/-- C3 (counterexample): Bob sends `"SDP-OFFER-1"` with welcome message
`"hi"` to the registered Alice, the ledger relays the submitted fields, the
codec round-trips and Alice's `decryptMessage` inverts Bob's
`encryptMessage`; Bob himself has no registration record, and Alice's Offer
handler pool is not run. -/
theorem offer_round_trip_needs_sender_record :
    submits (createOffer Sample.bobNew Sample.offerCfg).trace =
        [.offerChat [2, 104, 105]
          (Sample.frame (Sample.sharedTag Sample.bobEd Sample.aliceEd ++
            textEncode "SDP-OFFER-1"))
          Sample.aliceEd] ∧
      (Sample.bobNew.itemByAccountIdStore Sample.aliceSr).isEmpty = false ∧
      Sample.aliceOnly.encodeAddress Sample.bobSr = .ok (Sample.addr Sample.bobSr) ∧
      Sample.aliceOnly.decodeText (Sample.addr Sample.bobSr) = .ok Sample.bobSr ∧
      Sample.aliceOnly.decryptMessage
          (Sample.sharedTag Sample.bobEd Sample.aliceEd ++ textEncode "SDP-OFFER-1")
          Sample.bobEd = .ok (some (textEncode "SDP-OFFER-1")) ∧
      offerRuns (onEvent Sample.aliceOnly
        ⟨.offer,
          Sample.frame (Sample.sharedTag Sample.bobEd Sample.aliceEd ++
            textEncode "SDP-OFFER-1"),
          Sample.bobSr, Sample.aliceEd, [2, 104, 105]⟩) = [] :=
  ⟨(createOffer_submits Sample.bobNew Sample.offerCfg Sample.aliceSr Sample.aliceEd
      (Sample.sharedTag Sample.bobEd Sample.aliceEd ++ textEncode "SDP-OFFER-1")
      (by decide) (by decide) (by decide) (by decide) (by decide)).trans (by decide),
    by decide, by decide, by decide, by decide, by decide⟩

/-- C3 (amended): offer round trip.  Process B calls `createOffer` for a
registered recipient with encryption key `edA`; the ciphertext has at most
2046 bytes, the welcome message is ASCII with at most 255 characters and the
offer does not start with a byte order mark.  The ledger relays the three
submitted fields with B's signing key `srB`.  If the event is addressed to
process A, the address codec round-trips on `srB`, the sender `srB` is
registered with encryption key `edB`, and A's `decryptMessage` inverts B's
`encryptMessage`, then A runs its Offer handler pool exactly once, with the
original offer and welcome message. -/
theorem offer_round_trip (envA envB : Env) (cfg : OfferCfg)
    (srA edA srB edB ct : Bytes) (nick : Option Bytes) (textB textEdB : String)
    (hto : envB.decodeText cfg.toAddr = .ok srA)
    (hregA : (envB.itemByAccountIdStore srA).address = some edA)
    (henc : envB.encryptMessage (textEncode cfg.offer) edA = .ok ct)
    (hlen : ct.length ≤ 2046)
    (hascii : ∀ c ∈ cfg.welcomeMsg.data, c.toNat < 0x80)
    (hwlen : cfg.welcomeMsg.length ≤ 255)
    (hbom : cfg.offer.data.head? ≠ some (Char.ofNat 0xFEFF))
    (hlocal : envA.encodeAddress edA = .ok envA.edAddress)
    (hsr : envA.encodeAddress srB = .ok textB)
    (hsrd : envA.decodeText textB = .ok srB)
    (hregB : envA.itemByAccountIdStore srB = ⟨false, some edB, nick⟩)
    (hedB : envA.encodeAddress edB = .ok textEdB)
    (hdec : envA.decryptMessage ct edB = .ok (some (textEncode cfg.offer))) :
    ∃ w o, submits (createOffer envB cfg).trace = [.offerChat w o edA] ∧
      offerRuns (onEvent envA ⟨.offer, o, srB, edA, w⟩) =
        [⟨textB, textEdB, cfg.offer, cfg.welcomeMsg⟩] := by
  have hwl : (textEncode cfg.welcomeMsg).length = cfg.welcomeMsg.length :=
    encodeChars_ascii_length _ hascii
  have hjl : jsLength cfg.welcomeMsg = cfg.welcomeMsg.length := unitsOf_ascii _ hascii
  have hmod : jsLength cfg.welcomeMsg % 256 = (textEncode cfg.welcomeMsg).length := by
    rw [hjl, hwl]; omega
  refine ⟨_, _, createOffer_submits envB cfg srA edA ct hto hregA henc hlen (by omega), ?_⟩
  · rw [hmod]
    have hd1 := BinData.getUint16_frame ct.length ct (by omega)
    have hd2 := BinData.getBuffer_frame (ct.length % 256) (ct.length / 256 % 256) ct
    have hd3 := BinData.getUint8_frame (textEncode cfg.welcomeMsg).length
      (textEncode cfg.welcomeMsg)
    have hd4 := BinData.getString_frame (textEncode cfg.welcomeMsg).length
      (textEncode cfg.welcomeMsg)
    have hoff : textDecode (textEncode cfg.offer) = cfg.offer := textDecode_textEncode _ hbom
    have hwel : textDecode (textEncode cfg.welcomeMsg) = cfg.welcomeMsg :=
      textDecode_textEncode _ (ascii_head_ne_bom _ hascii)
    simp [onEvent, offerBranch, offerGuard, hsr, hlocal, Js.andThen, Js.lift, Js.ret, Js.emit,
      Env.decodeAddress, hsrd, hregB, offerContinuation, bufferOf, hd1, hd2, hd3, hd4, hdec,
      decodeNullable, hoff, hwel, hedB, Js.asContinuation, offerRuns]

theorem offer_round_trip_witness :
    ∃ w o, submits (createOffer Sample.bob Sample.offerCfg).trace =
        [.offerChat w o Sample.aliceEd] ∧
      offerRuns (onEvent Sample.alice ⟨.offer, o, Sample.bobSr, Sample.aliceEd, w⟩) =
        [⟨Sample.addr Sample.bobSr, Sample.addr Sample.bobEd, "SDP-OFFER-1", "hi"⟩] :=
  offer_round_trip Sample.alice Sample.bob Sample.offerCfg Sample.aliceSr Sample.aliceEd
    Sample.bobSr Sample.bobEd
    (Sample.sharedTag Sample.bobEd Sample.aliceEd ++ textEncode "SDP-OFFER-1")
    (some Sample.bobNick) (Sample.addr Sample.bobSr) (Sample.addr Sample.bobEd)
    (by decide) (by decide) (by decide) (by decide) (by decide) (by decide) (by decide)
    (by decide) (by decide) (by decide) (by decide) (by decide) (by decide)

/-- The welcome message `"é"` is written with length prefix 1 in front of its
two UTF-8 bytes, and the recipient decodes the replacement character. -/
theorem welcome_length_counts_code_units :
    submits (createOffer Sample.bob ⟨Sample.addr Sample.aliceSr, "SDP-OFFER-1", "é"⟩).trace =
        [.offerChat [1, 0xC3, 0xA9]
          (Sample.frame (Sample.sharedTag Sample.bobEd Sample.aliceEd ++
            textEncode "SDP-OFFER-1"))
          Sample.aliceEd] ∧
      offerRuns (onEvent Sample.alice
        ⟨.offer,
          Sample.frame (Sample.sharedTag Sample.bobEd Sample.aliceEd ++
            textEncode "SDP-OFFER-1"),
          Sample.bobSr, Sample.aliceEd, [1, 0xC3, 0xA9]⟩) =
        [⟨Sample.addr Sample.bobSr, Sample.addr Sample.bobEd, "SDP-OFFER-1",
          ⟨[replacementChar]⟩⟩] :=
  ⟨(createOffer_submits Sample.bob ⟨Sample.addr Sample.aliceSr, "SDP-OFFER-1", "é"⟩
      Sample.aliceSr Sample.aliceEd
      (Sample.sharedTag Sample.bobEd Sample.aliceEd ++ textEncode "SDP-OFFER-1")
      (by decide) (by decide) (by decide) (by decide) (by decide)).trans (by decide),
    by decide⟩

/-! ## Theorems: contacts and usernames -/

theorem contactAttempt_undecryptable (env : Env) (addrCrypto nameCrypto : Bytes)
    (h : (∀ own pt, env.decodeText env.edAddress = .ok own →
          env.decryptMessage addrCrypto own ≠ .ok (some pt)) ∨
        (∀ own pt, env.decodeText env.edAddress = .ok own →
          env.decryptMessage nameCrypto own ≠ .ok (some pt))) :
    ∃ e, contactAttempt env addrCrypto nameCrypto = .error e := by
  unfold contactAttempt
  simp only [Env.decodeAddress]
  cases hown : env.decodeText env.edAddress with
  | error e => exact ⟨e, rfl⟩
  | ok own =>
    cases ha : env.decryptMessage addrCrypto own with
    | error e => exact ⟨e, by simp [bind, Except.bind, ha]⟩
    | ok addr =>
      cases hn : env.decryptMessage nameCrypto own with
      | error e => exact ⟨e, by simp [bind, Except.bind, ha, hn]⟩
      | ok name =>
        cases addr with
        | none => exact ⟨.codec, by simp [bind, Except.bind, ha, hn, Env.encodeNullable]⟩
        | some pa =>
          cases name with
          | none =>
            cases henc : env.encodeAddress pa with
            | error e =>
              exact ⟨e, by simp [bind, Except.bind, ha, hn, Env.encodeNullable, henc]⟩
            | ok t =>
              exact ⟨.typeError, by
                simp [bind, Except.bind, ha, hn, Env.encodeNullable, henc, decodeNullable]⟩
          | some pn =>
            rcases h with h | h
            · exact absurd ha (h own pa hown)
            · exact absurd hn (h own pn hown)

theorem decodeContact_valid (env : Env)
    (getBuffer : BinData → Nat → Except JsError (Bytes × BinData))
    (addrCrypto nameCrypto : Bytes) (c : Contact)
    (hslice : ∀ bin len, getBuffer bin len =
      .ok ((bin.buffer.drop bin.cursor).take len, ⟨bin.buffer, bin.cursor + len⟩))
    (ha : addrCrypto.length < 65536) (hn : nameCrypto.length < 65536)
    (hok : contactAttempt env addrCrypto nameCrypto = .ok c) :
    decodeContact env getBuffer ⟨framed16 addrCrypto, framed16 nameCrypto⟩ = .ok (some c) := by
  have h1 := BinData.getUint16_frame addrCrypto.length addrCrypto ha
  have h2 := BinData.getUint16_frame nameCrypto.length nameCrypto hn
  simp [decodeContact, framed16, h1, h2, hslice, bind, Except.bind, hok, pure, Except.pure]

theorem decodeContact_truncated (env : Env)
    (getBuffer : BinData → Nat → Except JsError (Bytes × BinData))
    (la lb : Nat) (arest nrest : Bytes) (e : JsError)
    (hslice : ∀ bin len, getBuffer bin len =
      .ok ((bin.buffer.drop bin.cursor).take len, ⟨bin.buffer, bin.cursor + len⟩))
    (hla : la < 65536) (hlb : lb < 65536)
    (hfail : contactAttempt env (arest.take la) (nrest.take lb) = .error e) :
    decodeContact env getBuffer
      ⟨la % 256 :: la / 256 % 256 :: arest, lb % 256 :: lb / 256 % 256 :: nrest⟩ = .ok none := by
  have h1 := BinData.getUint16_frame la arest hla
  have h2 := BinData.getUint16_frame lb nrest hlb
  simp [decodeContact, h1, h2, hslice, bind, Except.bind, hfail, pure, Except.pure]

/-- C4: let the raw read `getBuffer` of `BinData` return the bytes that are
available (no throw when the length prefix announces more than the field
holds).  If every contact record returned by the ledger is either valid
(both length-prefixed fields complete and decoding to a contact under the
local key) or truncated (both 2-byte prefixes present, at least one field
shorter than announced and not decrypting), then `getContactList` resolves,
nothing escapes, and the result is exactly the contacts of the valid records
in their original order. -/
theorem getContactList_drops_truncated (env : Env)
    (getBuffer : BinData → Nat → Except JsError (Bytes × BinData))
    (owner : Bytes) (shapes : List RecordShape)
    (hslice : ∀ bin len, getBuffer bin len =
      .ok ((bin.buffer.drop bin.cursor).take len, ⟨bin.buffer, bin.cursor + len⟩))
    (howner : env.decodeText env.srAddress = .ok owner)
    (hledger : env.contactEntries owner = shapes.map RecordShape.entry)
    (hvalid : ∀ addrCrypto nameCrypto c, .valid addrCrypto nameCrypto c ∈ shapes →
      addrCrypto.length < 65536 ∧ nameCrypto.length < 65536 ∧
        contactAttempt env addrCrypto nameCrypto = .ok c)
    (htrunc : ∀ la lb arest nrest, .truncated la lb arest nrest ∈ shapes →
      la < 65536 ∧ lb < 65536 ∧
        ((arest.length < la ∧ ∀ own pt, env.decodeText env.edAddress = .ok own →
            env.decryptMessage arest own ≠ .ok (some pt)) ∨
          (nrest.length < lb ∧ ∀ own pt, env.decodeText env.edAddress = .ok own →
            env.decryptMessage nrest own ≠ .ok (some pt)))) :
    (getContactList env getBuffer).outcome = .resolved (shapes.filterMap RecordShape.contact) ∧
      escaped (getContactList env getBuffer).trace = [] := by
  have hmap : mapContacts env getBuffer (shapes.map RecordShape.entry) =
      .ok (shapes.map RecordShape.contact) := by
    clear hledger
    induction shapes with
    | nil => rfl
    | cons s ss ih =>
      have ih2 := ih
        (fun a n c h => hvalid a n c (List.mem_cons_of_mem _ h))
        (fun la lb ar nr h => htrunc la lb ar nr (List.mem_cons_of_mem _ h))
      have hs : decodeContact env getBuffer s.entry = .ok s.contact := by
        cases s with
        | valid a n c =>
          obtain ⟨h1, h2, h3⟩ := hvalid a n c (List.mem_cons_self _ _)
          exact decodeContact_valid env getBuffer a n c hslice h1 h2 h3
        | truncated la lb ar nr =>
          obtain ⟨h1, h2, h3⟩ := htrunc la lb ar nr (List.mem_cons_self _ _)
          have hund : ∃ e, contactAttempt env (ar.take la) (nr.take lb) = .error e := by
            apply contactAttempt_undecryptable
            rcases h3 with ⟨hl, hu⟩ | ⟨hl, hu⟩
            · left
              rw [List.take_of_length_le (by omega)]
              exact hu
            · right
              rw [List.take_of_length_le (by omega)]
              exact hu
          obtain ⟨e, he⟩ := hund
          exact decodeContact_truncated env getBuffer la lb ar nr e hslice h1 h2 he
      simp only [List.map_cons, mapContacts, hs, ih2]
  have hfm : List.filterMap id (shapes.map RecordShape.contact) =
      shapes.filterMap RecordShape.contact := by
    rw [List.filterMap_map]
    rfl
  simp [getContactList, Env.decodeAddress, howner, hledger, hmap, hfm, escaped]

theorem getContactList_drops_truncated_witness :
    Sample.ledgerCut.contacts.length = 4 ∧
      (getContactList (Sample.processEnv Sample.aliceEd Sample.aliceSr Sample.ledgerCut)
        Sample.sliceBuffer).outcome =
        .resolved [⟨Sample.addr Sample.bobSr, "Bob"⟩, ⟨Sample.addr Sample.carolSr, "Carol"⟩,
          ⟨Sample.addr Sample.erinSr, "Erin"⟩] ∧
      escaped (getContactList (Sample.processEnv Sample.aliceEd Sample.aliceSr
        Sample.ledgerCut) Sample.sliceBuffer).trace = [] :=
  (fun h => ⟨by decide, h.1.trans (by decide), h.2⟩) <|
  getContactList_drops_truncated
    (Sample.processEnv Sample.aliceEd Sample.aliceSr Sample.ledgerCut) Sample.sliceBuffer
    Sample.aliceSr Sample.shapesCut (fun _ _ => rfl) (by decide) rfl
    (by
      intro a n c h
      simp only [Sample.shapesCut, List.mem_cons, List.mem_singleton, RecordShape.valid.injEq,
        List.not_mem_nil, or_false, reduceCtorEq, false_or] at h
      rcases h with ⟨rfl, rfl, rfl⟩ | ⟨rfl, rfl, rfl⟩ | ⟨rfl, rfl, rfl⟩ <;> decide)
    (by
      intro la lb ar nr h
      simp only [Sample.shapesCut, List.mem_cons, List.mem_singleton,
        RecordShape.truncated.injEq, List.not_mem_nil, or_false, reduceCtorEq, false_or,
        or_false] at h
      obtain ⟨rfl, rfl, rfl, rfl⟩ := h
      refine ⟨by decide, by decide, Or.inr ⟨by decide, ?_⟩⟩
      intro own pt hown
      have h2 : own = Sample.aliceEd := by
        have h3 : (Sample.processEnv Sample.aliceEd Sample.aliceSr Sample.ledgerCut).decodeText
            (Sample.processEnv Sample.aliceEd Sample.aliceSr Sample.ledgerCut).edAddress =
            .ok Sample.aliceEd := by decide
        rw [h3] at hown
        exact (Except.ok.inj hown).symm
      subst h2
      have h4 : (Sample.processEnv Sample.aliceEd Sample.aliceSr Sample.ledgerCut).decryptMessage
          (List.replicate 10 4) Sample.aliceEd = .ok none := by decide
      rw [h4]
      intro h5
      cases h5)

/-- Under the reading of spec 4.1 in which `getBuffer` throws on a read past
the end: with three valid contact records the listing resolves to three
contacts; with the same three and one record whose name ciphertext lost two
bytes, the read in front of the `try` block throws, the promise stays
pending and the bounds error escapes. -/
theorem getContactList_strict_read_pending :
    (getContactList (Sample.processEnv Sample.aliceEd Sample.aliceSr Sample.ledgerThree)
        BinData.getBuffer).outcome =
        .resolved [⟨Sample.addr Sample.bobSr, "Bob"⟩, ⟨Sample.addr Sample.carolSr, "Carol"⟩,
          ⟨Sample.addr Sample.erinSr, "Erin"⟩] ∧
      (getContactList (Sample.processEnv Sample.aliceEd Sample.aliceSr Sample.ledgerFour)
        BinData.getBuffer).outcome = .pending ∧
      escaped (getContactList (Sample.processEnv Sample.aliceEd Sample.aliceSr
        Sample.ledgerFour) BinData.getBuffer).trace = [.error .bounds] := by
  decide

/-- C5: for the username `"é"` (two UTF-8 bytes) `register` submits the
length byte 1 followed by the two bytes, and `getUsername` on a record
storing that field resolves to the replacement character. -/
theorem register_length_byte_counts_code_units :
    (textEncode "é").length = 2 ∧
      submits (register Sample.bob "é" Sample.carolEd).trace =
        [.register [1, 0xC3, 0xA9] Sample.carolEd] ∧
      (getUsername (Sample.processEnv Sample.aliceEd Sample.aliceSr Sample.ledgerAccent)
        (.pair Sample.carolSr)).outcome = .resolved (some ⟨[replacementChar]⟩) ∧
      (⟨[replacementChar]⟩ : String) ≠ "é" := by
  decide

/-- For an ASCII username of at most 20 characters the nickname field is the
length byte followed by the characters, and `getUsername` reads the username
back from a record storing it. -/
theorem username_round_trip_ascii (username : String) (address : Option Bytes)
    (hascii : ∀ c ∈ username.data, c.toNat < 0x80) (hlen : username.length ≤ 20) :
    usernameField username = .ok (username.length :: textEncode username) ∧
      usernameOf ⟨false, address, some (username.length :: textEncode username)⟩ =
        .ok (some username) := by
  have hwl : (textEncode username).length = username.length :=
    encodeChars_ascii_length _ hascii
  have hjl : jsLength username = username.length := unitsOf_ascii _ hascii
  have hdec : textDecode (textEncode username) = username :=
    textDecode_textEncode _ (ascii_head_ne_bom _ hascii)
  obtain ⟨u1, u2, hu1, hu2, hu3⟩ :=
    BinData.alloc_write_two 21 [jsLength username % 256] (textEncode username)
      (by rw [List.length_singleton]; omega)
  have hmod : jsLength username % 256 = username.length := by rw [hjl]; omega
  constructor
  · simp only [usernameField, BinData.setUint8, BinData.setString]
    rw [hu1]
    show (u1.write (textEncode username) >>= fun b => pure b.uint8Array) = _
    rw [hu2]
    show Except.ok u2.uint8Array = _
    rw [hu3, hmod]
    rfl
  · have htake : List.take username.length (textEncode username) = textEncode username := by
      rw [← hwl]; exact List.take_length _
    simp [usernameOf, bufferOf, htake, hdec]

theorem username_round_trip_ascii_witness :
    usernameField "alice" = .ok ("alice".length :: textEncode "alice") ∧
      usernameOf ⟨false, none, some ("alice".length :: textEncode "alice")⟩ =
        .ok (some "alice") :=
  username_round_trip_ascii "alice" none (by decide) (by decide)

/-! ## Theorems: unregistered counterparts -/

/-- C6: `createOffer` towards a signing identity without a registration
record stays pending.  When the empty record has undefined fields the lookup
throws and nothing is encrypted; when it is a default value with an empty
address, `encryptMessage` is called with the empty key and throws.  No
transaction is submitted in either case. -/
theorem createOffer_unregistered_pending :
    (Sample.bobNewU.itemByAccountIdStore Sample.bobSr).isEmpty = true ∧
      (createOffer Sample.bobNewU ⟨Sample.addr Sample.bobSr, "SDP-OFFER-1", "hi"⟩).outcome =
        .pending ∧
      submits (createOffer Sample.bobNewU
        ⟨Sample.addr Sample.bobSr, "SDP-OFFER-1", "hi"⟩).trace = [] ∧
      (Sample.bobNew.itemByAccountIdStore Sample.bobSr).isEmpty = true ∧
      (createOffer Sample.bobNew ⟨Sample.addr Sample.bobSr, "SDP-OFFER-1", "hi"⟩).outcome =
        .pending ∧
      encrypts (createOffer Sample.bobNew
        ⟨Sample.addr Sample.bobSr, "SDP-OFFER-1", "hi"⟩).trace =
        [(textEncode "SDP-OFFER-1", [])] ∧
      submits (createOffer Sample.bobNew
        ⟨Sample.addr Sample.bobSr, "SDP-OFFER-1", "hi"⟩).trace = [] := by
  decide

/-- The promise returned by `createOffer` is never rejected. -/
theorem createOffer_never_rejects (env : Env) (cfg : OfferCfg) (r : Reason) :
    (createOffer env cfg).outcome ≠ .rejected r := by
  unfold createOffer
  split
  · split
    · simp only [signAndSend]
      split_ifs <;> simp
    · simp
  · simp
  · simp

/-- C7: when the username index holds no record for the packed username,
`addContact` rejects with the not-registered message, never calls
`encryptMessage` and submits no transaction. -/
theorem addContact_unregistered (env : Env) (username name : String)
    (hempty : ∀ key, usernameField username = .ok key →
      (env.itemByNicknameStore key).isEmpty = true) :
    (addContact env username name).outcome =
        .rejected (.message ("Username " ++ username ++ " not registered")) ∧
      encrypts (addContact env username name).trace = [] ∧
      submits (addContact env username name).trace = [] := by
  unfold addContact getAddress
  cases hk : usernameField username with
  | error e => simp [notRegistered, encrypts, submits]
  | ok key =>
    have he := hempty key hk
    simp [he, notRegistered, encrypts, submits]

theorem addContact_unregistered_witness :
    (addContact Sample.bob "zed" "Zed").outcome =
        .rejected (.message ("Username " ++ "zed" ++ " not registered")) ∧
      encrypts (addContact Sample.bob "zed" "Zed").trace = [] ∧
      submits (addContact Sample.bob "zed" "Zed").trace = [] :=
  addContact_unregistered Sample.bob "zed" "Zed" (by
      intro key hk
      have h2 : usernameField "zed" = .ok [3, 122, 101, 100] := by rfl
      rw [h2] at hk
      cases hk
      decide)

theorem addContact_body_throw (env : Env) (username name srAddress : String) (e : JsError)
    (h1 : (getAddress env username).outcome = .resolved srAddress)
    (h2 : (addContactBody env name srAddress).result = .error e) :
    (addContact env username name).outcome = .rejected (notRegistered username) := by
  unfold addContact
  simp [h1, h2]

theorem addContactBody_overflow (env : Env) (name srAddress : String)
    (decoded own c1 c2 : Bytes)
    (hd : env.decodeText srAddress = .ok decoded)
    (ho : env.decodeText env.edAddress = .ok own)
    (hc1 : env.encryptMessage decoded own = .ok c1)
    (hl1 : c1.length ≤ 998)
    (hc2 : env.encryptMessage (textEncode name) own = .ok c2)
    (hl2 : 998 < c2.length) :
    (addContactBody env name srAddress).result = .error .bounds := by
  obtain ⟨a1, a2, ha1, ha2, -⟩ :=
    BinData.alloc_write_two 1000 [c1.length % 256, c1.length / 256 % 256] c1
      (by rw [List.length_cons, List.length_singleton]; omega)
  obtain ⟨u1, hu1⟩ : ∃ u1, (BinData.alloc 1000).write
      [c2.length % 256, c2.length / 256 % 256] = .ok u1 :=
    ⟨_, BinData.write_ok _ _ (by simp [BinData.alloc])⟩
  have hu2 : u1.write c2 = .error .bounds := by
    have := BinData.write_ok (BinData.alloc 1000) [c2.length % 256, c2.length / 256 % 256]
      (by simp [BinData.alloc])
    rw [this] at hu1
    cases hu1
    simp [BinData.write, BinData.alloc]
    omega
  simp [addContactBody, Env.decodeAddress, hd, ho, encryptCall, hc1, hc2, Js.andThen, Js.lift,
    Js.ret, BinData.setUint16, BinData.setBuffer, ha1, ha2, hu1, hu2]

theorem longName_bytes : (textEncode Sample.longName).length = 1000 := by
  unfold textEncode Sample.longName
  rw [encodeChars_ascii_length]
  · simp
  · intro c hc
    rw [List.eq_of_mem_replicate hc]
    decide

/-- C10: Alice is registered, yet `addContact("alice", name)` rejects with the
not-registered message when the name ciphertext does not fit the 1000-byte
buffer, and also when `encryptMessage` throws. -/
theorem addContact_registered_rejected_as_unregistered :
    (getAddress Sample.bob "alice").outcome = .resolved (Sample.addr Sample.aliceSr) ∧
      (addContact Sample.bob "alice" Sample.longName).outcome =
        .rejected (.message "Username alice not registered") ∧
      (getAddress Sample.bobLocked "alice").outcome = .resolved (Sample.addr Sample.aliceSr) ∧
      (addContact Sample.bobLocked "alice" "Al").outcome =
        .rejected (.message "Username alice not registered") := by
  refine ⟨by decide, ?_, by decide, by decide⟩
  refine addContact_body_throw Sample.bob "alice" Sample.longName (Sample.addr Sample.aliceSr)
    .bounds (by decide) ?_
  refine addContactBody_overflow Sample.bob Sample.longName (Sample.addr Sample.aliceSr)
    Sample.aliceSr Sample.bobEd (Sample.sharedTag Sample.bobEd Sample.bobEd ++ Sample.aliceSr)
    (Sample.sharedTag Sample.bobEd Sample.bobEd ++ textEncode Sample.longName)
    (by decide) (by decide) (by decide) (by decide) rfl ?_
  rw [List.length_append, longName_bytes]
  decide

/-! ## Theorems: Answer events -/

/-- C8 (counterexample): Bob is registered and the framed ciphertext of
`answerToCarol` decrypts under his encryption identity, but the recipient
field is not Alice's address and her Answer handler pool is not run. -/
theorem answer_other_recipient_no_run :
    (getEdAddress Sample.alice (.raw Sample.bobSr)).outcome = .resolved Sample.bobEd ∧
      Sample.answerToCarol.data0 =
        Sample.frame (Sample.sharedTag Sample.bobEd Sample.aliceEd ++ [79, 75]) ∧
      Sample.alice.decryptMessage (Sample.sharedTag Sample.bobEd Sample.aliceEd ++ [79, 75])
        Sample.bobEd = .ok (some [79, 75]) ∧
      answerRuns (onEvent Sample.alice Sample.answerToCarol) = [] := by
  decide

/-- C8 (amended): for an Answer event whose sender field renders to a text
address that decodes to the key `raw`: if the recipient field renders to the
local encryption address, the sender lookup yields a non-empty encryption
identity and the length-prefixed ciphertext of `data0` decrypts under it, the
Answer handler pool is run exactly once with the sender text address and the
decoded plaintext; if the sender lookup yields no encryption identity (an
undefined field or an empty buffer), the pool is not run. -/
theorem answer_event_delivery (env : Env) (ev : Event) (accountFrom : String) (raw : Bytes)
    (hkind : ev.kind = .answer)
    (hfrom : env.encodeAddress ev.data1 = .ok accountFrom)
    (hraw : env.decodeText accountFrom = .ok raw) :
    (env.encodeAddress ev.data2 = .ok env.edAddress →
      ∀ ln bin ct bin2 ed pt,
        (BinData.wrap ev.data0).getUint16 = .ok (ln, bin) →
        bin.getBuffer ln = .ok (ct, bin2) →
        (env.itemByAccountIdStore raw).address = some ed → ed ≠ [] →
        env.decryptMessage ct ed = .ok (some pt) →
        answerRuns (onEvent env ev) = [⟨accountFrom, textDecode pt⟩]) ∧
    ((env.itemByAccountIdStore raw).address = none ∨
        (env.itemByAccountIdStore raw).address = some [] →
      answerRuns (onEvent env ev) = []) := by
  constructor
  · intro hto ln bin ct bin2 ed pt hln hct hed hne hdec
    have hlen : ed.length ≠ 0 := by
      intro h; exact hne (List.length_eq_zero.mp h)
    simp [onEvent, hkind, answerBranch, answerGuard, hfrom, hto, Js.andThen, Js.lift, Js.ret,
      hln, hct, Env.decodeAddress, hraw, getEdAddress, hed, bufferOf, answerContinuation,
      hlen, hdec, decodeNullable, Js.emit, Js.asContinuation, answerRuns]
  · intro habs
    simp only [onEvent, hkind, answerBranch, answerGuard, hfrom, js_bind, js_pure]
    cases h2 : env.encodeAddress ev.data2 with
    | error e => simp [Js.andThen, Js.lift, answerRuns]
    | ok accountTo =>
      by_cases hto : accountTo = env.edAddress
      · cases h3 : (BinData.wrap ev.data0).getUint16 with
        | error e => simp [Js.andThen, Js.lift, answerRuns, hto, h3]
        | ok r =>
          obtain ⟨ln, bin⟩ := r
          cases h4 : bin.getBuffer ln with
          | error e => simp [Js.andThen, Js.lift, answerRuns, hto, h3, h4]
          | ok r2 =>
            obtain ⟨ct, bin2⟩ := r2
            rcases habs with habs | habs
            · simp [Js.andThen, Js.lift, answerRuns, hto, h3, h4, Env.decodeAddress, hraw,
                Js.ret, getEdAddress, habs, bufferOf]
            · simp [Js.andThen, Js.lift, answerRuns, hto, h3, h4, Env.decodeAddress, hraw,
                Js.ret, getEdAddress, habs, bufferOf, answerContinuation, Js.asContinuation]
      · simp [Js.andThen, Js.lift, answerRuns, hto, Js.ret]

theorem answer_event_delivery_witness :
    answerRuns (onEvent Sample.alice Sample.answerToAlice) =
        [⟨Sample.addr Sample.bobSr, textDecode [79, 75]⟩] ∧
      answerRuns (onEvent Sample.aliceOnly Sample.answerToAlice) = [] :=
  ⟨(answer_event_delivery Sample.alice Sample.answerToAlice (Sample.addr Sample.bobSr)
      Sample.bobSr rfl (by decide) (by decide)).1 (by decide) 34
      ⟨Sample.answerToAlice.data0, 2⟩ (Sample.sharedTag Sample.bobEd Sample.aliceEd ++ [79, 75])
      ⟨Sample.answerToAlice.data0, 36⟩ Sample.bobEd [79, 75]
      (by decide) (by decide) (by decide) (by decide) (by decide),
    (answer_event_delivery Sample.aliceOnly Sample.answerToAlice (Sample.addr Sample.bobSr)
      Sample.bobSr rfl (by decide) (by decide)).2 (Or.inr (by decide))⟩

/-! ## Theorems: readiness gate -/

/-- The invariant of an instance: before the connection callback ran nothing
is logged; afterwards the log starts with the subscription followed by the
ready signal. -/
theorem gate_invariant (steps : List Step) (sys : System)
    (h : (sys.client = false ∧ sys.ready = false ∧ sys.log = []) ∨
      (sys.client = true ∧ sys.ready = true ∧
        ∃ rest, sys.log = .subscribed :: .readySignal :: List.map LogEntry.effect rest)) :
    ((sys.run steps).client = false ∧ (sys.run steps).ready = false ∧ (sys.run steps).log = []) ∨
      ((sys.run steps).client = true ∧ (sys.run steps).ready = true ∧
        ∃ rest, (sys.run steps).log =
          .subscribed :: .readySignal :: List.map LogEntry.effect rest) := by
  induction steps generalizing sys with
  | nil => exact h
  | cons st sts ih =>
    apply ih
    rcases h with ⟨hc, hr, hl⟩ | ⟨hc, hr, rest, hl⟩
    · cases st with
      | call env op =>
        left
        simp [System.step, System.onReady, hr, hc, hl]
      | connected env =>
        right
        refine ⟨?_, ?_, drain env sys.queue, ?_⟩ <;>
          simp [System.step, System.signalReady, hr, hc, hl]
      | deliver env ev =>
        left
        simp [System.step, hr, hc, hl]
    · right
      cases st with
      | call env op =>
        refine ⟨?_, ?_, rest ++ op.effects env, ?_⟩ <;>
          simp [System.step, System.onReady, hr, hc, hl]
      | connected env =>
        refine ⟨?_, ?_, rest, ?_⟩ <;> simp [System.step, hr, hc, hl]
      | deliver env ev =>
        refine ⟨?_, ?_, rest ++ onEvent env ev, ?_⟩ <;> simp [System.step, hr, hc, hl]

/-- C9: in every execution, while the gate is not ready the log is empty, so
none of the eight operations has queried the ledger or submitted a
transaction; and every effect in the log, in particular every ledger access
of an operation, comes after the ready signal, which comes right after the
event subscription was installed. -/
theorem gate_before_ledger_access (steps : List Step) :
    ((System.init.run steps).ready = false → (System.init.run steps).log = []) ∧
      (∀ pre e post, (System.init.run steps).log = pre ++ LogEntry.effect e :: post →
        ∃ mid, pre = LogEntry.subscribed :: LogEntry.readySignal :: mid) := by
  have h := gate_invariant steps System.init (Or.inl ⟨rfl, rfl, rfl⟩)
  constructor
  · intro hr
    rcases h with ⟨-, -, hl⟩ | ⟨-, hr2, -⟩
    · exact hl
    · rw [hr] at hr2; cases hr2
  · intro pre e post hlog
    rcases h with ⟨-, -, hl⟩ | ⟨-, -, rest, hl⟩
    · rw [hl] at hlog
      cases pre <;> simp at hlog
    · rw [hl] at hlog
      match pre, hlog with
      | [], hlog => simp at hlog
      | [x], hlog => simp at hlog
      | x :: y :: mid, hlog =>
        simp only [List.cons_append, List.cons.injEq] at hlog
        exact ⟨mid, by rw [← hlog.1, ← hlog.2.1]⟩

theorem gate_before_ledger_access_witness :
    (System.init.run [.call Sample.bob (.getAddress "alice")]).log = [] ∧
      (∃ mid, [LogEntry.subscribed, LogEntry.readySignal] =
        LogEntry.subscribed :: LogEntry.readySignal :: mid) :=
  ⟨(gate_before_ledger_access [.call Sample.bob (.getAddress "alice")]).1 rfl,
    (gate_before_ledger_access
      [.call Sample.bob (.getAddress "alice"), .connected Sample.bob]).2
      [.subscribed, .readySignal] (.query (.itemByNicknameStore Sample.aliceNick)) []
      (by decide)⟩

end Blockchain
